import Mathlib

/-
Verification development for the Salamander repository.

The repository decodes a "Gecko code" (a list of 32-bit words) into an
annotated text report (src/gecko.rs) and assembles a single PowerPC
instruction line into a 32-bit machine word (src/main.rs).

Shallow embedding conventions:
* 32-bit words are modelled as `Nat`; every input word of the real program
  is `< 2^32` and all arithmetic performed by the source stays below `2^32`
  on such inputs, so no wrap-around modelling is needed.
* `Cursor<&[u32]>` is modelled as the underlying list plus an explicit
  position; every function that reads the cursor returns the new position.
* Rust code that can panic (out-of-bounds indexing in `get_and_seek`,
  `unwrap()` in `token_to_numeric_argument`, `unreachable!()` arms) is
  modelled with an explicit `Panic` error value.
* `format!` strings are translated to explicit string concatenation;
  `{:08X}` / `{:04X}` / `{:02X}` become `hex8` / `hex4` / `hex2` and the
  decimal `Display` of integers becomes `Nat.repr`.
-/

namespace Salamander

/-- Error type of `gecko.rs` (`GeckoCodeConversionError`), extended with a
`Panic` constructor that models a Rust panic (out-of-bounds slice indexing
inside `get_and_seek`, and the `unreachable!()` arms of `from_84_94`). -/
inductive GeckoCodeConversionError where
  | InvalidType (line_number : Nat) (value : Nat)
  | Malformed
  | Empty
  | ParseError (reason : String)
  | Panic
deriving DecidableEq

/-- Rendering of one hexadecimal digit (uppercase), as used by Rust's
`{:X}` formatting. -/
def hexChar (n : Nat) : Char :=
  if n < 10 then Char.ofNat (48 + n) else Char.ofNat (55 + n)

/-- Rust `format!("{:08X}", v)` for a `u32` value: eight uppercase hex
digits (a `u32` always fits in eight digits). -/
def hex8 (n : Nat) : String :=
  String.mk [hexChar ((n >>> 28) % 16), hexChar ((n >>> 24) % 16),
             hexChar ((n >>> 20) % 16), hexChar ((n >>> 16) % 16),
             hexChar ((n >>> 12) % 16), hexChar ((n >>> 8) % 16),
             hexChar ((n >>> 4) % 16), hexChar (n % 16)]

/-- Rust `format!("{:04X}", v)` for a `u16` value. -/
def hex4 (n : Nat) : String :=
  String.mk [hexChar ((n >>> 12) % 16), hexChar ((n >>> 8) % 16),
             hexChar ((n >>> 4) % 16), hexChar (n % 16)]

/-- Rust `format!("{:02X}", v)` for a `u8` value. -/
def hex2 (n : Nat) : String :=
  String.mk [hexChar ((n >>> 4) % 16), hexChar (n % 16)]

/-- `gecko.rs` `get_and_seek`: read the word at the cursor position and
advance by one.  The source indexes the slice without a bounds check
(`cursor.get_ref()[pos as usize]`), which panics when `pos` is past the
end; the panic is modelled by the `Panic` error. -/
def get_and_seek (ws : List Nat) (pos : Nat) :
    Except GeckoCodeConversionError (Nat × Nat) :=
  match ws[pos]? with
  | some value => .ok (value, pos + 1)
  | none => .error .Panic

/-- Pure core of `gecko.rs` `get_code_address` (the spec's Address
Resolver): mask the raw word to its low 24 bits, OR with `0x80000000`,
and add `0x01000000` when the larger-address flag is set. -/
def resolve (raw : Nat) (larger_address : Bool) : Nat :=
  let address := raw &&& 0x00FFFFFF
  let final_address := 0x80000000 ||| address
  if larger_address then final_address + 0x01000000 else final_address

/-- `gecko.rs` `get_code_address`: read one word and resolve it. -/
def get_code_address (ws : List Nat) (pos : Nat) (larger_address : Bool) :
    Except GeckoCodeConversionError (Nat × Nat) :=
  match get_and_seek ws pos with
  | .error e => .error e
  | .ok (raw, pos1) => .ok (resolve raw larger_address, pos1)

/-- Modelled from the spec: the disassembly direction of the Instruction
Text Codec (`ppc::code_to_instruction`, whose source module is not part of
the two files of this repository; `gecko.rs` only calls it).  The spec pins
its output at `0x80630004` (the round-trip example) and describes it as a
total word-to-text rendering; every theorem below uses it only as an
uninterpreted total `Nat → String` renderer, so unspecified words are
rendered as their hex value. -/
def code_to_instruction (code : Nat) : String :=
  if code = 0x80630004 then "lwz r3, 0x4(r3)"
  else if code = 0x4E800020 then "blr"
  else if code = 0x60000000 then "nop"
  else "0x" ++ hex8 code

/-- `gecko.rs` `from_02` (16-bit RAM write & fill). -/
def from_02 (ws : List Nat) (pos : Nat) (larger_address : Bool) :
    Except GeckoCodeConversionError (String × Nat) :=
  match get_code_address ws pos larger_address with
  | .error e => .error e
  | .ok (address, pos1) =>
    match get_and_seek ws pos1 with
    | .error e => .error e
    | .ok (temp, pos2) =>
      let count := (temp &&& 0xFFFF0000) >>> 0x10
      let value := temp &&& 0x0000FFFF
      .ok ("// - Constant 16-bit RAM Fill -\n"
           ++ "// Range: 0x" ++ hex8 address ++ " to 0x"
           ++ hex8 (address + count + 1) ++ "\n"
           ++ "// Value: 0x" ++ hex4 value, pos2)

/-- `gecko.rs` `from_04` (32-bit RAM write). -/
def from_04 (ws : List Nat) (pos : Nat) (larger_address : Bool) :
    Except GeckoCodeConversionError (String × Nat) :=
  match get_code_address ws pos larger_address with
  | .error e => .error e
  | .ok (address, pos1) =>
    match get_and_seek ws pos1 with
    | .error e => .error e
    | .ok (value, pos2) =>
      .ok ("// - Constant 32-bit RAM Write -\n"
           ++ "// Target address: 0x" ++ hex8 address ++ "\n"
           ++ "// Value: 0x" ++ hex8 value, pos2)

/-- `gecko.rs` `from_80` (set Gecko register). -/
def from_80 (ws : List Nat) (pos : Nat) :
    Except GeckoCodeConversionError (String × Nat) :=
  match get_and_seek ws pos with
  | .error e => .error e
  | .ok (w0, pos1) =>
    let register := w0 &&& 0x000000FF
    match get_and_seek ws pos1 with
    | .error e => .error e
    | .ok (value, pos2) =>
      .ok ("// gr" ++ Nat.repr register ++ " = 0x" ++ hex8 value, pos2)

/-- `gecko.rs` `from_82` (load into Gecko register). -/
def from_82 (ws : List Nat) (pos : Nat) :
    Except GeckoCodeConversionError (String × Nat) :=
  match get_and_seek ws pos with
  | .error e => .error e
  | .ok (w0, pos1) =>
    let register := w0 &&& 0x000000FF
    match get_and_seek ws pos1 with
    | .error e => .error e
    | .ok (value, pos2) =>
      .ok ("// - Load value 0x" ++ hex8 value ++ " into register "
           ++ Nat.repr register, pos2)

/-- `gecko.rs` `from_84_94` (store Gecko register).  The source computes
`value_size_value` as `(code & 0x00F00000) >> 0x18` and `sub_subtype` as
`(code & 0x000F0000) >> 0x14`; both shifts are kept exactly as written.
The `unreachable!()` arms are modelled as `Panic`. -/
def from_84_94 (ws : List Nat) (pos : Nat) :
    Except GeckoCodeConversionError (String × Nat) :=
  match get_and_seek ws pos with
  | .error e => .error e
  | .ok (code, pos1) =>
    let subtype := (code &&& 0xFF000000) >>> 0x18
    let value_size_value := (code &&& 0x00F00000) >>> 0x18
    let value_size? : Option Nat :=
      if value_size_value = 0 then some 1
      else if value_size_value = 1 then some 2
      else if value_size_value = 2 then some 4
      else none
    match value_size? with
    | none =>
      .error (.ParseError
        "Invalid T type. Must be 0 (1 byte), 1 (2 bytes), or 2 (4 bytes).")
    | some value_size =>
      let num_additional_written_values := (code &&& 0x0000FFF0) >>> 0x4
      let consecutive_written := num_additional_written_values + 1
      let register := code &&& 0xF
      match get_and_seek ws pos1 with
      | .error e => .error e
      | .ok (address, pos2) =>
        if subtype = 0x84 then
          let sub_subtype := (code &&& 0x000F0000) >>> 0x14
          if sub_subtype = 0 then
            .ok ("// - Store register " ++ Nat.repr register
                 ++ " starting at address 0x" ++ hex8 address
                 ++ " with " ++ Nat.repr consecutive_written
                 ++ " consecutive written " ++ Nat.repr value_size
                 ++ "-byte values -", pos2)
          else if sub_subtype = 1 then
            .ok ("// - Store register " ++ Nat.repr register
                 ++ " starting at address 0x" ++ hex8 address
                 ++ " + ba with " ++ Nat.repr consecutive_written
                 ++ " consecutive written " ++ Nat.repr value_size
                 ++ "-byte values -", pos2)
          else .error .Panic
        else if subtype = 0x94 then
          .ok ("// - Store register " ++ Nat.repr register
               ++ " starting at address 0x" ++ hex8 address
               ++ " + po with " ++ Nat.repr consecutive_written
               ++ " consecutive written " ++ Nat.repr value_size
               ++ "-byte values -", pos2)
        else .error .Panic

/-- Big-endian bytes of a `u32` value (Rust `u32::to_be_bytes`). -/
def u32_to_be_bytes (v : Nat) : List Nat :=
  [(v >>> 24) &&& 0xFF, (v >>> 16) &&& 0xFF, (v >>> 8) &&& 0xFF, v &&& 0xFF]

/-- The word-reading loop of `from_06`: read `k` consecutive words
(`for _ in 0..num_values { get_and_seek(cursor) }`). -/
def read_words (ws : List Nat) : Nat → Nat → Except GeckoCodeConversionError (List Nat × Nat)
  | pos, 0 => .ok ([], pos)
  | pos, k + 1 =>
    match get_and_seek ws pos with
    | .error e => .error e
    | .ok (v, pos1) =>
      match read_words ws pos1 k with
      | .error e => .error e
      | .ok (vs, pos2) => .ok (v :: vs, pos2)

/-- Rust `u8` continuation-byte test for UTF-8 (`0x80..=0xBF`). -/
def is_utf8_cont (b : Nat) : Bool := 0x80 ≤ b && b ≤ 0xBF

/-- Model of Rust `String::from_utf8`: validate a byte list as UTF-8 and
decode it to the corresponding scalar-value (character) list, rejecting
overlong forms, surrogates and values above `0x10FFFF` exactly as the
standard UTF-8 validation does. -/
def utf8_decode : List Nat → Option (List Char)
  | [] => some []
  | b :: bs =>
    if b ≤ 0x7F then
      match utf8_decode bs with
      | some cs => some (Char.ofNat b :: cs)
      | none => none
    else if 0xC2 ≤ b && b ≤ 0xDF then
      match bs with
      | b1 :: bs1 =>
        if is_utf8_cont b1 then
          match utf8_decode bs1 with
          | some cs => some (Char.ofNat (((b &&& 0x1F) <<< 6) ||| (b1 &&& 0x3F)) :: cs)
          | none => none
        else none
      | [] => none
    else if 0xE0 ≤ b && b ≤ 0xEF then
      match bs with
      | b1 :: b2 :: bs2 =>
        let first_ok : Bool :=
          if b = 0xE0 then 0xA0 ≤ b1 && b1 ≤ 0xBF
          else if b = 0xED then 0x80 ≤ b1 && b1 ≤ 0x9F
          else is_utf8_cont b1
        if first_ok && is_utf8_cont b2 then
          match utf8_decode bs2 with
          | some cs =>
            some (Char.ofNat (((b &&& 0xF) <<< 12) ||| ((b1 &&& 0x3F) <<< 6)
                              ||| (b2 &&& 0x3F)) :: cs)
          | none => none
        else none
      | _ => none
    else if 0xF0 ≤ b && b ≤ 0xF4 then
      match bs with
      | b1 :: b2 :: b3 :: bs3 =>
        let first_ok : Bool :=
          if b = 0xF0 then 0x90 ≤ b1 && b1 ≤ 0xBF
          else if b = 0xF4 then 0x80 ≤ b1 && b1 ≤ 0x8F
          else is_utf8_cont b1
        if first_ok && is_utf8_cont b2 && is_utf8_cont b3 then
          match utf8_decode bs3 with
          | some cs =>
            some (Char.ofNat (((b &&& 0x7) <<< 18) ||| ((b1 &&& 0x3F) <<< 12)
                              ||| ((b2 &&& 0x3F) <<< 6) ||| (b3 &&& 0x3F)) :: cs)
          | none => none
        else none
      | _ => none
    else none

/-- The byte-printing loop of `from_06`: `index` is the running index,
`total` the length of the whole byte vector; a line break is inserted
before every eighth byte (except the first), and the last byte is followed
by `]` instead of `, `. -/
def render_bytes (total : Nat) : Nat → List Nat → String
  | _, [] => ""
  | index, byte :: rest =>
    (if index ≠ 0 ∧ index % 8 = 0 then "\n// " else "")
    ++ (if index = total - 1 then "0x" ++ hex2 byte ++ "]"
        else "0x" ++ hex2 byte ++ ", ")
    ++ render_bytes total (index + 1) rest

/-- The zero-byte heuristic of `from_06`: the candidate is a string when
the first zero byte (if any) is the last byte of the vector
(`!(index < raw_bytes.len() - 1)` in the source; the index exists, so the
vector is non-empty and the comparison is equivalent to
`index + 1 < len`). -/
def is_string_candidate (raw_bytes : List Nat) : Bool :=
  match raw_bytes.findIdx? (fun byte => byte == 0) with
  | some index => !(decide (index + 1 < raw_bytes.length))
  | none => false

/-- `gecko.rs` `from_06` (string RAM write).  `num_values` is
`next_multiple_of(4) / 4 = ⌈num_bytes/4⌉`; `Vec::resize` truncates (or
zero-pads) the byte vector to `num_bytes`; the zero-byte position check
and the `String::from_utf8` check are exactly the source's. -/
def from_06 (ws : List Nat) (pos : Nat) (larger_address : Bool) :
    Except GeckoCodeConversionError (String × Nat) :=
  match get_code_address ws pos larger_address with
  | .error e => .error e
  | .ok (address, pos1) =>
    match get_and_seek ws pos1 with
    | .error e => .error e
    | .ok (num_bytes, pos2) =>
      let header := "// - String RAM Write - \n"
        ++ "// Target address: 0x" ++ hex8 address ++ "\n"
      let num_values := (num_bytes + 3) / 4
      match read_words ws pos2 num_values with
      | .error e => .error e
      | .ok (values, pos3) =>
        let packed := (values.map u32_to_be_bytes).flatten
        let raw_bytes := packed.take num_bytes
          ++ List.replicate (num_bytes - packed.length) 0
        let is_string : Bool := is_string_candidate raw_bytes
        let byte_render := "// Byte contents:\n// ["
          ++ render_bytes raw_bytes.length 0 raw_bytes
        if is_string = true then
          match utf8_decode raw_bytes with
          | some chars =>
            .ok (header ++ "// String contents: \"" ++ String.mk chars
                 ++ "\"\n", pos3)
          | none => .ok (header ++ byte_render, pos3)
        else .ok (header ++ byte_render, pos3)

/-- The instruction loop of `from_c0`: runs `num_lines` times, reading a
pair of words per iteration, stopping (and printing `blr`) as soon as
either word of the pair is `0x4E800020`. -/
def c0_loop (ws : List Nat) : Nat → Nat → Except GeckoCodeConversionError (String × Nat)
  | pos, 0 => .ok ("", pos)
  | pos, n + 1 =>
    match get_and_seek ws pos with
    | .error e => .error e
    | .ok (left_code, pos1) =>
      match get_and_seek ws pos1 with
      | .error e => .error e
      | .ok (right_code, pos2) =>
        if left_code = 0x4E800020 then .ok ("blr\n", pos2)
        else
          let left_text := code_to_instruction left_code ++ "\n"
          if right_code = 0x4E800020 then .ok (left_text ++ "blr\n", pos2)
          else
            match c0_loop ws pos2 n with
            | .error e => .error e
            | .ok (rest, pos3) =>
              .ok (left_text ++ code_to_instruction right_code ++ "\n"
                   ++ rest, pos3)

/-- `gecko.rs` `from_c0` (execute assembly). -/
def from_c0 (ws : List Nat) (pos : Nat) :
    Except GeckoCodeConversionError (String × Nat) :=
  match get_and_seek ws pos with
  | .error e => .error e
  | .ok (address, pos1) =>
    match get_and_seek ws pos1 with
    | .error e => .error e
    | .ok (num_lines, pos2) =>
      match c0_loop ws pos2 num_lines with
      | .error e => .error e
      | .ok (body, pos3) =>
        .ok ("// - Execute Assembly - \n"
             ++ "// Target address: 0x" ++ hex8 address ++ "\n\n"
             ++ body, pos3)

/-- The `while (cursor.position() as usize) < cursor_len` loop of
`from_c2`, written with an explicit fuel argument to make it structurally
recursive.  One unit of fuel is spent per iteration and each iteration
advances the position by two, so any `fuel` with
`ws.length - pos ≤ 2 * fuel` is enough and the fuel-exhausted branch is
unreachable for the canonical call (`from_c2` passes `ws.length`);
theorem `C10_dispatch_advances_and_decode_terminates` below proves the
corresponding fuel-irrelevance for the dispatcher loop. -/
def c2_loop (ws : List Nat) : Nat → Nat → Except GeckoCodeConversionError (String × Nat)
  | 0, pos => if pos < ws.length then .error .Panic else .ok ("", pos)
  | fuel + 1, pos =>
    if pos < ws.length then
      match get_and_seek ws pos with
      | .error e => .error e
      | .ok (left_code, pos1) =>
        match get_and_seek ws pos1 with
        | .error e => .error e
        | .ok (right_code, pos2) =>
          if left_code = 0x60000000 ∧ right_code = 0 then .ok ("", pos2)
          else
            let left_text := code_to_instruction left_code ++ "\n"
            if right_code = 0x60000000 then .ok (left_text, pos2)
            else
              match c2_loop ws fuel pos2 with
              | .error e => .error e
              | .ok (rest, pos3) =>
                .ok (left_text ++ code_to_instruction right_code ++ "\n"
                     ++ rest, pos3)
    else .ok ("", pos)

/-- `gecko.rs` `from_c2` (insert assembly).  `cursor_len` is the length of
the whole word sequence; the nominal line count is read but not used. -/
def from_c2 (ws : List Nat) (pos : Nat) (larger_address : Bool) :
    Except GeckoCodeConversionError (String × Nat) :=
  match get_code_address ws pos larger_address with
  | .error e => .error e
  | .ok (address, pos1) =>
    match get_and_seek ws pos1 with
    | .error e => .error e
    | .ok (_num_lines, pos2) =>
      match c2_loop ws ws.length pos2 with
      | .error e => .error e
      | .ok (body, pos3) =>
        .ok ("// - Insert Assembly -\n"
             ++ "// Target address: 0x" ++ hex8 address ++ "\n\n"
             ++ body, pos3)

/-- `gecko.rs` `from_c6` (create a branch). -/
def from_c6 (ws : List Nat) (pos : Nat) (larger_address : Bool) :
    Except GeckoCodeConversionError (String × Nat) :=
  match get_code_address ws pos larger_address with
  | .error e => .error e
  | .ok (address, pos1) =>
    match get_and_seek ws pos1 with
    | .error e => .error e
    | .ok (target, pos2) =>
      .ok ("// - Create a Branch -\n"
           ++ "// Target address: 0x" ++ hex8 address ++ "\n"
           ++ "// Branch to: 0x" ++ hex8 target ++ "\n", pos2)

/-- The body of the dispatcher's `while` loop in
`convert_from_gecko_code_values`: read the tag byte of the word at the
current position and route to the matching record decoder; an unmatched
tag produces `InvalidType` with the 1-based line number
(`current_cursor_position / 2 + 1`) and the offending word.  The loop
guard guarantees `pos < ws.length`, so the `none` arm (the would-be
out-of-bounds indexing `gecko_code[current_cursor_position]`) is
unreachable from `convert_loop`. -/
def dispatch_record (ws : List Nat) (pos : Nat) :
    Except GeckoCodeConversionError (String × Nat) :=
  match ws[pos]? with
  | none => .error .Panic
  | some current_value =>
    let byte := (current_value &&& 0xFF000000) >>> 0x18
    if byte = 0x02 ∨ byte = 0x03 then from_02 ws pos (byte % 2 != 0)
    else if byte = 0x04 ∨ byte = 0x05 then from_04 ws pos (byte % 2 != 0)
    else if byte = 0x06 then from_06 ws pos (byte % 2 != 0)
    else if byte = 0x80 then from_80 ws pos
    else if byte = 0x82 then from_82 ws pos
    else if byte = 0x84 ∨ byte = 0x94 then from_84_94 ws pos
    else if byte = 0xC0 then from_c0 ws pos
    else if byte = 0xC2 ∨ byte = 0xC3 then from_c2 ws pos (byte % 2 != 0)
    else if byte = 0xC6 ∨ byte = 0xC7 then from_c6 ws pos (byte % 2 != 0)
    else .error (.InvalidType (pos / 2 + 1) current_value)

/-- The dispatcher's `while current_cursor_position < gecko_code.len()`
loop, with an explicit fuel argument for structural recursion.  Every
record decoder advances the position by at least two on success (theorem
`C10_dispatch_advances_and_decode_terminates`), so any fuel with
`ws.length - pos ≤ 2 * fuel` is enough and the fuel-exhausted branch is
unreachable for the canonical call, which passes `ws.length`. -/
def convert_loop (ws : List Nat) : Nat → Nat → Except GeckoCodeConversionError String
  | 0, pos => if pos < ws.length then .error .Panic else .ok ""
  | fuel + 1, pos =>
    if pos < ws.length then
      match dispatch_record ws pos with
      | .error e => .error e
      | .ok (record_text, pos1) =>
        match convert_loop ws fuel pos1 with
        | .error e => .error e
        | .ok rest => .ok (record_text ++ "\n\n// ---\n\n" ++ rest)
    else .ok ""

/-- `gecko.rs` `convert_from_gecko_code_values`: length validation
followed by the dispatcher loop. -/
def convert_from_gecko_code_values (gecko_code : List Nat) :
    Except GeckoCodeConversionError String :=
  if gecko_code.length = 0 then .error .Empty
  else if gecko_code.length % 2 ≠ 0 then .error .Malformed
  else convert_loop gecko_code gecko_code.length 0

/-! Embedding of `src/main.rs`: the assembly direction of the Instruction
Text Codec. -/

/-- Model of Rust `str::starts_with` / `strip_prefix` tests, over the
character list (all prefixes used by `main.rs` are ASCII, so character
positions coincide with the source's byte positions). -/
def str_starts_with (s pre : String) : Bool := pre.data.isPrefixOf s.data

/-- Model of Rust `str::ends_with` over the character list. -/
def str_ends_with (s suf : String) : Bool := suf.data.isSuffixOf s.data

/-- Drop the first `k` characters (Rust `strip_prefix` result for a
`k`-character prefix). -/
def str_drop (s : String) (k : Nat) : String := String.mk (s.data.drop k)

/-- Drop the last `k` characters (Rust `strip_suffix` result for a
`k`-character suffix). -/
def str_drop_right (s : String) (k : Nat) : String :=
  String.mk (s.data.take (s.data.length - k))

/-- Model of Rust `str::contains(char)`. -/
def str_contains (s : String) (c : Char) : Bool := s.data.contains c

/-- Model of Rust `str::split` with a character-class pattern: pieces
between separator characters, including empty pieces (exactly the
behavior of `line.split([' ', ','])`). -/
def split_chars (p : Char → Bool) : List Char → List Char → List String
  | [], acc => [String.mk acc.reverse]
  | c :: cs, acc =>
    if p c then String.mk acc.reverse :: split_chars p cs []
    else split_chars p cs (c :: acc)

/-- Split a string at every character satisfying `p`. -/
def string_split (p : Char → Bool) (s : String) : List String :=
  split_chars p s.data []

/-- Marker for a Rust panic in `main.rs` (the `.unwrap()` in
`token_to_numeric_argument` and out-of-bounds array writes). -/
inductive RustPanic where
  | panic
deriving DecidableEq

/-- `ppc750cl_asm::Argument` as used by `main.rs`: only the `None` and
`Unsigned` variants occur. -/
inductive Argument where
  | None
  | Unsigned (n : Nat)
deriving DecidableEq

/-- Numeric value of a list of characters under `digit?`, accumulating
left to right; `none` if any character is not a digit.  (Rust reports
overflow during accumulation; here the value is accumulated exactly and
range-checked by the caller, which yields the same `Ok`/`Err` outcome.) -/
def digits_value (digit? : Char → Option Nat) (base : Nat) :
    List Char → Nat → Option Nat
  | [], acc => some acc
  | c :: cs, acc =>
    match digit? c with
    | some d => digits_value digit? base cs (acc * base + d)
    | none => none

/-- Decimal digit value. -/
def dec_digit (c : Char) : Option Nat :=
  if '0' ≤ c ∧ c ≤ '9' then some (c.toNat - 48) else none

/-- Hexadecimal digit value (Rust `from_str_radix` accepts both cases). -/
def hex_digit (c : Char) : Option Nat :=
  if '0' ≤ c ∧ c ≤ '9' then some (c.toNat - 48)
  else if 'a' ≤ c ∧ c ≤ 'f' then some (c.toNat - 87)
  else if 'A' ≤ c ∧ c ≤ 'F' then some (c.toNat - 55)
  else none

/-- Shared shape of Rust's integer parsing into `i16`: an optional sign,
then at least one digit, and a range check against `i16` bounds. -/
def parse_i16_with (digit? : Char → Option Nat) (base : Nat) (s : String) :
    Option Int :=
  let signed : Option (Int × List Char) :=
    match s.data with
    | [] => none
    | '+' :: cs => some (1, cs)
    | '-' :: cs => some (-1, cs)
    | cs => some (1, cs)
  match signed with
  | none => none
  | some (sign, cs) =>
    match cs with
    | [] => none
    | c :: rest =>
      match digit? c with
      | none => none
      | some d =>
        match digits_value digit? base rest d with
        | none => none
        | some n =>
          if sign = 1 then if n ≤ 32767 then some (n : Int) else none
          else if n ≤ 32768 then some (-(n : Int)) else none

/-- Rust `str::parse::<i16>()`. -/
def parse_i16 (s : String) : Option Int := parse_i16_with dec_digit 10 s

/-- Rust `i16::from_str_radix(s, 16)`. -/
def from_str_radix_i16 (s : String) : Option Int := parse_i16_with hex_digit 16 s

/-- `main.rs` `token_to_numeric_argument`.  The hexadecimal branch calls
`.unwrap()` on the `from_str_radix` result, which panics when the hex
token is unparseable or out of `i16` range; every other failure is a
graceful `None`.  The `num * mult` product is carried exactly as an
integer (its two's-complement `i16` reinterpretation happens in
`token_to_argument`). -/
def token_to_numeric_argument (token : String) : Except RustPanic (Option Int) :=
  if str_starts_with token "r" then .ok (parse_i16 (str_drop token 1))
  else if str_starts_with token "f" then .ok (parse_i16 (str_drop token 1))
  else
    let mult : Int := if str_starts_with token "-" then -1 else 1
    let token1 := if str_starts_with token "-" then str_drop token 1 else token
    if str_starts_with token1 "0x" then
      match from_str_radix_i16 (str_drop token1 2) with
      | some num => .ok (some (num * mult))
      | none => .error .panic
    else
      match parse_i16 token1 with
      | some num => .ok (some (num * mult))
      | none => .ok none

/-- `main.rs` `token_to_argument`: strip a leading `(` (only when the
token contains `(`) and a trailing `)` (only when it contains `)`), parse
the rest numerically, and reinterpret the `i16` value as an unsigned
16-bit field (`u16::from_ne_bytes(arg_value.to_ne_bytes()) as u32`). -/
def token_to_argument (token : String) : Except RustPanic (Option Argument) :=
  let stripped_left : Option String :=
    if str_contains token '(' then
      if str_starts_with token "(" then some (str_drop token 1) else none
    else some token
  match stripped_left with
  | none => .ok none
  | some token1 =>
    let stripped_right : Option String :=
      if str_contains token1 ')' then
        if str_ends_with token1 ")" then some (str_drop_right token1 1) else none
      else some token1
    match stripped_right with
    | none => .ok none
    | some token2 =>
      match token_to_numeric_argument token2 with
      | .error e => .error e
      | .ok none => .ok none
      | .ok (some v) => .ok (some (.Unsigned (v % 65536).toNat))

/-- `main.rs` `is_offset`: parentheses present on both sides means an
offset token; the residual `else` arm of the source is unreachable, since
the second branch covers every remaining case. -/
def is_offset (token : String) : Option Bool :=
  let left_found := str_contains token '('
  let right_found := str_ends_with token ")"
  if left_found && right_found then some true
  else if !(left_found && right_found) then some false
  else none

/-- `main.rs` `offset_to_tokens`: split at the first `(`; byte positions
in the source coincide with character positions here because the split
character is ASCII and splitting happens at a character boundary. -/
def offset_to_tokens (token : String) : Option (String × String) :=
  match token.data.findIdx? (fun c => c == '(') with
  | none => none
  | some left_paren_pos =>
    some (String.mk (token.data.take left_paren_pos),
          String.mk (token.data.drop left_paren_pos))

/-- `main.rs` `token_to_arguments`: split an `imm(reg)` token and parse
both halves. -/
def token_to_arguments (token : String) :
    Except RustPanic (Option (Argument × Argument)) :=
  match offset_to_tokens token with
  | none => .ok none
  | some (offset, register) =>
    match token_to_argument offset with
    | .error e => .error e
    | .ok none => .ok none
    | .ok (some offset_arg) =>
      match token_to_argument register with
      | .error e => .error e
      | .ok none => .ok none
      | .ok (some register_arg) => .ok (some (offset_arg, register_arg))

/-- `main.rs` `EXPECTED_ARG_COUNTS` (the trailing-underscore names mirror
the source's `addic_`, `andi_`, ... record forms). -/
def EXPECTED_ARG_COUNTS : List (String × Nat) := [
  ("add", 3), ("addc", 3), ("adde", 3), ("addi", 3), ("addic", 3),
  ("addic_", 3), ("addis", 3), ("addme", 2), ("addze", 2), ("and", 3),
  ("andc", 3), ("andi_", 3), ("andis_", 3), ("b", 1), ("bc", 3),
  ("bcctr", 2), ("bclr", 2), ("cmp", 4), ("cmpi", 4), ("cmpl", 4),
  ("cmpli", 4), ("cntlzw", 2), ("crand", 3), ("crandc", 3), ("creqv", 3),
  ("crnand", 3), ("crnor", 3), ("cror", 3), ("crorc", 3), ("crxor", 3),
  ("dcbf", 2), ("dcbi", 2), ("dcbst", 2), ("dcbt", 2), ("dcbtst", 2),
  ("dcbz", 2), ("dcbz_l", 2), ("divw", 3), ("divwu", 3), ("eciwx", 3),
  ("ecowx", 3), ("eieio", 0), ("eqv", 3), ("extsb", 2), ("extsh", 2),
  ("fabs", 2), ("fadd", 3), ("fadds", 3), ("fcmpo", 3), ("fcmpu", 3),
  ("fctiw", 2), ("fctiwz", 2), ("fdiv", 3), ("fdivs", 3), ("fmadd", 4),
  ("fmadds", 4), ("fmr", 2), ("fmsub", 4), ("fmsubs", 4), ("fmul", 3),
  ("fmuls", 3), ("fnabs", 2), ("fneg", 2), ("fnmadd", 4), ("fnmadds", 4),
  ("fnmsub", 4), ("fnmsubs", 4), ("fres", 2), ("frsp", 2), ("frsqrte", 2),
  ("fsel", 4), ("fsub", 3), ("fsubs", 3), ("icbi", 2), ("isync", 0),
  ("lbz", 3), ("lbzu", 3), ("lbzux", 3), ("lbzx", 3), ("lfd", 3),
  ("lfdu", 3), ("lfdux", 3), ("lfdx", 3), ("lfs", 3), ("lfsu", 3),
  ("lfsux", 3), ("lfsx", 3), ("lha", 3), ("lhau", 3), ("lhaux", 3),
  ("lhax", 3), ("lhbrx", 3), ("lhz", 3), ("lhzu", 3), ("lhzux", 3),
  ("lhzx", 3), ("lmw", 3), ("lswi", 3), ("lswx", 3), ("lwarx", 3),
  ("lwbrx", 3), ("lwz", 3), ("lwzu", 3), ("lwzux", 3), ("lwzx", 3),
  ("mcrf", 2), ("mcrfs", 2), ("mcrxr", 1), ("mfcr", 1), ("mffs", 1),
  ("mfmsr", 1), ("mfspr", 2), ("mfsr", 2), ("mfsrin", 2), ("mftb", 2),
  ("mtcrf", 2), ("mtfsb0", 1), ("mtfsb1", 1), ("mtfsf", 2), ("mtfsfi", 2),
  ("mtmsr", 1), ("mtspr", 2), ("mtsr", 2), ("mtsrin", 2), ("mulhw", 3),
  ("mulhwu", 3), ("mulli", 3), ("mullw", 3), ("nand", 3), ("neg", 2),
  ("nor", 3), ("or", 3), ("orc", 3), ("ori", 3), ("oris", 3),
  ("psq_l", 5), ("psq_lu", 5), ("psq_lux", 5), ("psq_lx", 5),
  ("psq_st", 5), ("psq_stu", 5), ("psq_stux", 5), ("psq_stx", 5),
  ("ps_abs", 2), ("ps_add", 3), ("ps_cmpo0", 3), ("ps_cmpo1", 3),
  ("ps_cmpu0", 3), ("ps_cmpu1", 3), ("ps_div", 3), ("ps_madd", 4),
  ("ps_madds0", 4), ("ps_madds1", 4), ("ps_merge00", 3), ("ps_merge01", 3),
  ("ps_merge10", 3), ("ps_merge11", 3), ("ps_mr", 2), ("ps_msub", 4),
  ("ps_mul", 3), ("ps_muls0", 3), ("ps_muls1", 3), ("ps_nabs", 2),
  ("ps_neg", 2), ("ps_nmadd", 4), ("ps_nmsub", 4), ("ps_res", 2),
  ("ps_rsqrte", 2), ("ps_sel", 4), ("ps_sub", 3), ("ps_sum0", 4),
  ("ps_sum1", 4), ("rfi", 0), ("rlwimi", 5), ("rlwinm", 5), ("rlwnm", 5),
  ("sc", 0), ("slw", 3), ("sraw", 3), ("srawi", 3), ("srw", 3),
  ("stb", 3), ("stbu", 3), ("stbux", 3), ("stbx", 3), ("stfd", 3),
  ("stfdu", 3), ("stfdux", 3), ("stfdx", 3), ("stfiwx", 3), ("stfs", 3),
  ("stfsu", 3), ("stfsux", 3), ("stfsx", 3), ("sth", 3), ("sthbrx", 3),
  ("sthu", 3), ("sthux", 3), ("sthx", 3), ("stmw", 3), ("stswi", 3),
  ("stswx", 3), ("stw", 3), ("stwbrx", 3), ("stwcx_", 3), ("stwu", 3),
  ("stwux", 3), ("stwx", 3), ("subf", 3), ("subfc", 3), ("subfe", 3),
  ("subfic", 3), ("subfme", 2), ("subfze", 2), ("sync", 0), ("tlbie", 1),
  ("tlbsync", 0), ("tw", 3), ("twi", 3), ("xor", 3), ("xori", 3),
  ("xoris", 3), ("bctr", 0), ("bdnz", 1), ("bdnzf", 2), ("bdnzflr", 1),
  ("bdnzlr", 0), ("bdnzt", 2), ("bdnztlr", 1), ("bdz", 1), ("bdzf", 2),
  ("bdzflr", 1), ("bdzlr", 0), ("bdzt", 2), ("bdztlr", 1), ("beq", 0),
  ("blt", 4), ("clrlwi", 3), ("clrrwi", 3), ("cmpd", 1), ("crmove", 2),
  ("crnot", 2), ("crset", 1), ("extlwi", 4), ("extrwi", 4), ("li", 2),
  ("lis", 2), ("mfctr", 1), ("mfdar", 1), ("mfdbatl", 2), ("mfdbatu", 2),
  ("mfdec", 1), ("mfdsisr", 1), ("mfear", 1), ("mfibatl", 2),
  ("mfibatu", 2), ("mflr", 1), ("mfsdr1", 1), ("mfsprg", 2), ("mfsrr0", 1),
  ("mfsrr1", 1), ("mfxer", 1), ("mr", 2), ("mtctr", 1), ("mtdar", 1),
  ("mtdbatl", 2), ("mtdbatu", 2), ("mtdec", 1), ("mtdsisr", 1),
  ("mtear", 1), ("mtibatl", 2), ("mtibatu", 2), ("mtlr", 1), ("mtsdr1", 1),
  ("mtsprg", 2), ("mtsrr0", 1), ("mtsrr1", 1), ("mttbl", 1), ("mttbu", 1),
  ("mtxer", 1), ("nop", 0), ("rotlw", 3), ("rotlwi", 3), ("rotrwi", 3),
  ("slwi", 3), ("srwi", 3), ("subi", 3), ("subic", 3), ("subic_", 3),
  ("subis", 3), ("trap", 0), ("tweq", 2), ("twgti", 2), ("twlge", 2),
  ("twllei", 2), ("twui", 2)]

/-- Linear scan of `find_arg_count`. -/
def find_arg_count_in : List (String × Nat) → String → Option Nat
  | [], _ => none
  | (m, c) :: rest, mnemonic =>
    if mnemonic = m then some c else find_arg_count_in rest mnemonic

/-- `main.rs` `find_arg_count`. -/
def find_arg_count (mnemonic : String) : Option Nat :=
  find_arg_count_in EXPECTED_ARG_COUNTS mnemonic

/-- The `additional` accumulation in `instr_to_code`: one extra expected
operand per offset token. -/
def count_offsets : List String → Nat
  | [] => 0
  | t :: ts =>
    (match is_offset t with
     | some true => 1
     | _ => 0) + count_offsets ts

/-- Rust array write `passed_args[i] = v`: panics when `i` is out of
bounds (the surrounding arity check keeps it in bounds on every reachable
path). -/
def set_arg (args : List Argument) (i : Nat) (v : Argument) :
    Except RustPanic (List Argument) :=
  if i < args.length then .ok (args.set i v) else .error .panic

/-- The argument-collection loop of `instr_to_code`: `used` is
`used_args`; an offset token contributes two arguments and skips the
`used_args > 5` check (the source `continue`s), a plain token contributes
one and then checks. -/
def process_tokens : List String → List Argument → Nat →
    Except RustPanic (Option (List Argument))
  | [], args, _ => .ok (some args)
  | token :: rest, args, used =>
    if is_offset token = some true then
      match token_to_arguments token with
      | .error e => .error e
      | .ok none => .ok none
      | .ok (some (a, b)) =>
        match set_arg args used a with
        | .error e => .error e
        | .ok args1 =>
          match set_arg args1 (used + 1) b with
          | .error e => .error e
          | .ok args2 => process_tokens rest args2 (used + 2)
    else
      match token_to_argument token with
      | .error e => .error e
      | .ok none => .ok none
      | .ok (some a) =>
        match set_arg args used a with
        | .error e => .error e
        | .ok args1 =>
          if used + 1 > 5 then .ok none
          else process_tokens rest args1 (used + 1)

/-- `main.rs` `instr_to_code`, parameterised by the external
`ppc750cl_asm::assemble` (a third-party crate, modelled as an arbitrary
total function returning `some code` for `Ok` and `none` for `Err`):
tokenize on spaces and commas, validate the mnemonic and operand count
against the table, parse the operands, and hand them to `assemble`. -/
def instr_to_code (assemble : String → List Argument → Option Nat)
    (line : String) : Except RustPanic (Option Nat) :=
  let tokens := (string_split (fun c => c == ' ' || c == ',') line).filter
    (fun t => !t.data.isEmpty)
  match tokens with
  | [] => .ok none
  | mnemonic :: args =>
    match args with
    | [] =>
      match assemble mnemonic (List.replicate 5 .None) with
      | some assembled => .ok (some assembled)
      | none => .ok none
    | _ :: _ =>
      match find_arg_count mnemonic with
      | none => .ok none
      | some arg_count =>
        let found_arg_count := args.length + count_offsets args
        if found_arg_count ≠ arg_count then .ok none
        else
          match process_tokens args (List.replicate 5 .None) 0 with
          | .error e => .error e
          | .ok none => .ok none
          | .ok (some passed_args) =>
            match assemble mnemonic passed_args with
            | some assembled => .ok (some assembled)
            | none => .ok none

/-- The pair at index `i` terminates a `0xC2/0xC3` insert-assembly
record: either a no-op word paired with an exact zero, or a no-op word in
the second position. -/
def c2_pair_terminal (ws : List Nat) (i : Nat) : Prop :=
  (ws[i]? = some 0x60000000 ∧ ws[i + 1]? = some 0) ∨
  ws[i + 1]? = some 0x60000000

instance (ws : List Nat) (i : Nat) : Decidable (c2_pair_terminal ws i) := by
  unfold c2_pair_terminal
  infer_instance

/-- The set of tag bytes handled by the dispatcher's `match` (everything
else falls into the `InvalidType` arm). -/
def supported_tag (byte : Nat) : Bool :=
  (byte == 0x02) || (byte == 0x03) || (byte == 0x04) || (byte == 0x05) ||
  (byte == 0x06) || (byte == 0x80) || (byte == 0x82) || (byte == 0x84) ||
  (byte == 0x94) || (byte == 0xC0) || (byte == 0xC2) || (byte == 0xC3) ||
  (byte == 0xC6) || (byte == 0xC7)

/-- The declared extent of the record starting at `pos` fits inside the
sequence: two words for the fixed-size families, `2 + ⌈byte_count/4⌉` for
the string write, `2 + 2·line_count` for execute-assembly, and — for
insert-assembly, whose extent is the whole remainder — a pair-aligned
remainder after the two header words.  This is the hypothesis of the
amended claim C1: a record whose declared extent does not fit makes the
decoder read past the end. -/
def record_extent_ok (ws : List Nat) (pos : Nat) : Bool :=
  match ws[pos]? with
  | none => false
  | some v =>
    let byte := (v &&& 0xFF000000) >>> 0x18
    if byte = 0x06 then
      match ws[pos + 1]? with
      | some n => decide (pos + 2 + (n + 3) / 4 ≤ ws.length)
      | none => false
    else if byte = 0xC0 then
      match ws[pos + 1]? with
      | some n => decide (pos + 2 + 2 * n ≤ ws.length)
      | none => false
    else if byte = 0xC2 ∨ byte = 0xC3 then
      decide (pos + 2 ≤ ws.length) &&
      decide ((ws.length - (pos + 2)) % 2 = 0)
    else decide (pos + 2 ≤ ws.length)

/-- The hypothesis of the amended claim C1, checked along the boundaries
the dispatcher actually visits: every reached record boundary carries a
supported tag and a record whose declared extent fits in the sequence.
The walk follows the decoder's own consumption (`dispatch_record`); the
`error` arm returns `true` so that the walk asserts nothing beyond the
tag and extent checks (the decode-success theorem below shows that arm is
never taken when the checks hold). -/
def decode_well_formed (ws : List Nat) : Nat → Nat → Bool
  | 0, pos => decide (ws.length ≤ pos)
  | fuel + 1, pos =>
    if pos < ws.length then
      match ws[pos]? with
      | none => false
      | some v =>
        supported_tag ((v &&& 0xFF000000) >>> 0x18) &&
        record_extent_ok ws pos &&
        (match dispatch_record ws pos with
         | .ok (_, pos') => decode_well_formed ws fuel pos'
         | .error _ => true)
    else true

/-! Helper lemmas about the word cursor and the record decoders. -/

/-- `get_and_seek` either panics or returns the word at `pos` and
advances by one. -/
theorem get_and_seek_eq (ws : List Nat) (pos : Nat) :
    get_and_seek ws pos = .error .Panic ∨
      ∃ v, ws[pos]? = some v ∧ get_and_seek ws pos = .ok (v, pos + 1) := by
  rw [get_and_seek]
  cases h : ws[pos]? with
  | none => exact Or.inl rfl
  | some v => exact Or.inr ⟨v, rfl, rfl⟩

/-- `get_code_address` either panics or resolves the word at `pos` and
advances by one. -/
theorem get_code_address_eq (ws : List Nat) (pos : Nat) (larger : Bool) :
    get_code_address ws pos larger = .error .Panic ∨
      ∃ raw, ws[pos]? = some raw ∧
        get_code_address ws pos larger = .ok (resolve raw larger, pos + 1) := by
  rw [get_code_address]
  rcases get_and_seek_eq ws pos with h | ⟨v, hv, h⟩ <;> rw [h] <;> try dsimp only
  · exact Or.inl rfl
  · exact Or.inr ⟨v, hv, rfl⟩

/-- On success `from_02` consumes exactly two words; on failure it
panics. -/
theorem from_02_spec (ws : List Nat) (pos : Nat) (larger : Bool) :
    (∀ s pos', from_02 ws pos larger = .ok (s, pos') → pos' = pos + 2) ∧
    (∀ e, from_02 ws pos larger = .error e → e = .Panic) := by
  rw [from_02]
  rcases get_code_address_eq ws pos larger with h | ⟨raw, hraw, h⟩ <;>
    rw [h] <;> try dsimp only
  · exact ⟨fun s pos' h' => (by cases h'), fun e h' => (by cases h'; rfl)⟩
  · rcases get_and_seek_eq ws (pos + 1) with h1 | ⟨v, hv, h1⟩ <;>
      rw [h1] <;> try dsimp only
    · exact ⟨fun s pos' h' => (by cases h'), fun e h' => (by cases h'; rfl)⟩
    · refine ⟨fun s pos' h' => ?_, fun e h' => (by cases h')⟩
      cases h'; omega

/-- On success `from_04` consumes exactly two words; on failure it
panics. -/
theorem from_04_spec (ws : List Nat) (pos : Nat) (larger : Bool) :
    (∀ s pos', from_04 ws pos larger = .ok (s, pos') → pos' = pos + 2) ∧
    (∀ e, from_04 ws pos larger = .error e → e = .Panic) := by
  rw [from_04]
  rcases get_code_address_eq ws pos larger with h | ⟨raw, hraw, h⟩ <;>
    rw [h] <;> try dsimp only
  · exact ⟨fun s pos' h' => (by cases h'), fun e h' => (by cases h'; rfl)⟩
  · rcases get_and_seek_eq ws (pos + 1) with h1 | ⟨v, hv, h1⟩ <;>
      rw [h1] <;> try dsimp only
    · exact ⟨fun s pos' h' => (by cases h'), fun e h' => (by cases h'; rfl)⟩
    · refine ⟨fun s pos' h' => ?_, fun e h' => (by cases h')⟩
      cases h'; omega

/-- On success `from_80` consumes exactly two words; on failure it
panics. -/
theorem from_80_spec (ws : List Nat) (pos : Nat) :
    (∀ s pos', from_80 ws pos = .ok (s, pos') → pos' = pos + 2) ∧
    (∀ e, from_80 ws pos = .error e → e = .Panic) := by
  rw [from_80]
  rcases get_and_seek_eq ws pos with h | ⟨v, hv, h⟩ <;> rw [h] <;> try dsimp only
  · exact ⟨fun s pos' h' => (by cases h'), fun e h' => (by cases h'; rfl)⟩
  · rcases get_and_seek_eq ws (pos + 1) with h1 | ⟨w, hw, h1⟩ <;>
      rw [h1] <;> try dsimp only
    · exact ⟨fun s pos' h' => (by cases h'), fun e h' => (by cases h'; rfl)⟩
    · refine ⟨fun s pos' h' => ?_, fun e h' => (by cases h')⟩
      cases h'; omega

/-- On success `from_82` consumes exactly two words; on failure it
panics. -/
theorem from_82_spec (ws : List Nat) (pos : Nat) :
    (∀ s pos', from_82 ws pos = .ok (s, pos') → pos' = pos + 2) ∧
    (∀ e, from_82 ws pos = .error e → e = .Panic) := by
  rw [from_82]
  rcases get_and_seek_eq ws pos with h | ⟨v, hv, h⟩ <;> rw [h] <;> try dsimp only
  · exact ⟨fun s pos' h' => (by cases h'), fun e h' => (by cases h'; rfl)⟩
  · rcases get_and_seek_eq ws (pos + 1) with h1 | ⟨w, hw, h1⟩ <;>
      rw [h1] <;> try dsimp only
    · exact ⟨fun s pos' h' => (by cases h'), fun e h' => (by cases h'; rfl)⟩
    · refine ⟨fun s pos' h' => ?_, fun e h' => (by cases h')⟩
      cases h'; omega

/-- On success `from_c6` consumes exactly two words; on failure it
panics. -/
theorem from_c6_spec (ws : List Nat) (pos : Nat) (larger : Bool) :
    (∀ s pos', from_c6 ws pos larger = .ok (s, pos') → pos' = pos + 2) ∧
    (∀ e, from_c6 ws pos larger = .error e → e = .Panic) := by
  rw [from_c6]
  rcases get_code_address_eq ws pos larger with h | ⟨raw, hraw, h⟩ <;>
    rw [h] <;> try dsimp only
  · exact ⟨fun s pos' h' => (by cases h'), fun e h' => (by cases h'; rfl)⟩
  · rcases get_and_seek_eq ws (pos + 1) with h1 | ⟨v, hv, h1⟩ <;>
      rw [h1] <;> try dsimp only
    · exact ⟨fun s pos' h' => (by cases h'), fun e h' => (by cases h'; rfl)⟩
    · refine ⟨fun s pos' h' => ?_, fun e h' => (by cases h')⟩
      cases h'; omega

/-- The store-register size selector as computed by the source,
`(code & 0x00F00000) >> 0x18`, is zero for every word: the mask keeps
bits 20–23 but the shift discards bits 0–23. -/
theorem value_size_value_eq_zero (code : Nat) :
    (code &&& 0x00F00000) >>> 0x18 = 0 := by
  have h : code &&& 0x00F00000 < 2 ^ 24 :=
    lt_of_le_of_lt Nat.and_le_right (by norm_num)
  rw [Nat.shiftRight_eq_div_pow]
  exact Nat.div_eq_of_lt h

/-- The store-register sub-subtype as computed by the source,
`(code & 0x000F0000) >> 0x14`, is likewise zero for every word: the mask
keeps bits 16-19 but the shift discards bits 0-19. -/
theorem sub_subtype_eq_zero (code : Nat) :
    (code &&& 0x000F0000) >>> 0x14 = 0 := by
  have h : code &&& 0x000F0000 < 2 ^ 20 :=
    lt_of_le_of_lt Nat.and_le_right (by norm_num)
  rw [Nat.shiftRight_eq_div_pow]
  exact Nat.div_eq_of_lt h

/-- On success `from_84_94` consumes exactly two words; on failure it
panics — in particular it never returns the `ParseError` of the invalid
size selector, because the selector expression is identically zero. -/
theorem from_84_94_spec (ws : List Nat) (pos : Nat) :
    (∀ s pos', from_84_94 ws pos = .ok (s, pos') → pos' = pos + 2) ∧
    (∀ e, from_84_94 ws pos = .error e → e = .Panic) := by
  rw [from_84_94]
  rcases get_and_seek_eq ws pos with h | ⟨code, hcode, h⟩ <;>
    rw [h] <;> try dsimp only
  · exact ⟨fun s pos' h' => (by cases h'), fun e h' => (by cases h'; rfl)⟩
  · rw [value_size_value_eq_zero code, if_pos rfl]
    try dsimp only
    rcases get_and_seek_eq ws (pos + 1) with h1 | ⟨addr, ha, h1⟩ <;>
      rw [h1] <;> try dsimp only
    · exact ⟨fun s pos' h' => (by cases h'), fun e h' => (by cases h'; rfl)⟩
    · rw [sub_subtype_eq_zero code, if_pos rfl]
      constructor
      · intro s pos' h'
        split at h'
        · cases h'; omega
        · split at h'
          · cases h'; omega
          · cases h'
      · intro e h'
        split at h'
        · cases h'
        · split at h'
          · cases h'
          · cases h'; rfl

/-- `read_words` reads exactly `k` words on success; every failure is a
panic. -/
theorem read_words_spec (ws : List Nat) :
    ∀ k pos,
      (∀ vs pos', read_words ws pos k = .ok (vs, pos') → pos' = pos + k) ∧
      (∀ e, read_words ws pos k = .error e → e = .Panic) := by
  intro k
  induction k with
  | zero =>
    intro pos
    exact ⟨fun vs pos' h => (by cases h; rfl), fun e h => (by cases h)⟩
  | succ k ih =>
    intro pos
    rw [read_words]
    rcases get_and_seek_eq ws pos with h | ⟨v, hv, h⟩ <;> rw [h] <;> try dsimp only
    · exact ⟨fun vs pos' h' => (by cases h'), fun e h' => (by cases h'; rfl)⟩
    · rcases h2 : read_words ws (pos + 1) k with e | ⟨vs, pos2⟩ <;> try dsimp only
      · refine ⟨fun vs pos' h' => (by cases h'), fun e' h' => ?_⟩
        cases h'
        exact (ih (pos + 1)).2 _ h2
      · refine ⟨fun vs' pos' h' => ?_, fun e' h' => (by cases h')⟩
        cases h'
        have := (ih (pos + 1)).1 _ _ h2
        omega

/-- On success `from_06` consumes at least two words (two header words
plus the packed data words); on failure it panics. -/
theorem from_06_spec (ws : List Nat) (pos : Nat) (larger : Bool) :
    (∀ s pos', from_06 ws pos larger = .ok (s, pos') → pos + 2 ≤ pos') ∧
    (∀ e, from_06 ws pos larger = .error e → e = .Panic) := by
  rw [from_06]
  rcases get_code_address_eq ws pos larger with h | ⟨raw, hraw, h⟩ <;>
    rw [h] <;> try dsimp only
  · exact ⟨fun s pos' h' => (by cases h'), fun e h' => (by cases h'; rfl)⟩
  · rcases get_and_seek_eq ws (pos + 1) with h1 | ⟨n, hn, h1⟩ <;>
      rw [h1] <;> try dsimp only
    · exact ⟨fun s pos' h' => (by cases h'), fun e h' => (by cases h'; rfl)⟩
    · rcases h2 : read_words ws (pos + 1 + 1) ((n + 3) / 4) with e | ⟨vs, pos3⟩ <;> try dsimp only
      · refine ⟨fun s pos' h' => (by cases h'), fun e' h' => ?_⟩
        cases h'
        exact (read_words_spec ws ((n + 3) / 4) (pos + 1 + 1)).2 _ h2
      · have hpos3 := (read_words_spec ws ((n + 3) / 4) (pos + 1 + 1)).1 _ _ h2
        constructor
        · intro s pos' h'
          split at h'
          · split at h'
            · cases h'; omega
            · cases h'; omega
          · cases h'; omega
        · intro e h'
          split at h'
          · split at h' <;> cases h'
          · cases h'

/-- The `from_c0` instruction loop never rewinds, and every failure is a
panic. -/
theorem c0_loop_spec (ws : List Nat) :
    ∀ n pos,
      (∀ s pos', c0_loop ws pos n = .ok (s, pos') → pos ≤ pos') ∧
      (∀ e, c0_loop ws pos n = .error e → e = .Panic) := by
  intro n
  induction n with
  | zero =>
    intro pos
    exact ⟨fun s pos' h => (by cases h; exact le_refl _), fun e h => (by cases h)⟩
  | succ n ih =>
    intro pos
    rw [c0_loop]
    rcases get_and_seek_eq ws pos with h | ⟨l, hl, h⟩ <;> rw [h] <;> try dsimp only
    · exact ⟨fun s pos' h' => (by cases h'), fun e h' => (by cases h'; rfl)⟩
    · rcases get_and_seek_eq ws (pos + 1) with h1 | ⟨r, hr, h1⟩ <;>
        rw [h1] <;> try dsimp only
      · exact ⟨fun s pos' h' => (by cases h'), fun e h' => (by cases h'; rfl)⟩
      · constructor
        · intro s pos' h'
          split at h'
          · cases h'; omega
          · split at h'
            · cases h'; omega
            · rcases h2 : c0_loop ws (pos + 1 + 1) n with e | ⟨rest, pos3⟩ <;>
                rw [h2] at h' <;> try dsimp only at h'
              · cases h'
              · cases h'
                have := (ih (pos + 1 + 1)).1 _ _ h2
                omega
        · intro e h'
          split at h'
          · cases h'
          · split at h'
            · cases h'
            · rcases h2 : c0_loop ws (pos + 1 + 1) n with e' | ⟨rest, pos3⟩ <;>
                rw [h2] at h' <;> try dsimp only at h'
              · cases h'
                exact (ih (pos + 1 + 1)).2 _ h2
              · cases h'

/-- On success `from_c0` consumes at least two words; on failure it
panics. -/
theorem from_c0_spec (ws : List Nat) (pos : Nat) :
    (∀ s pos', from_c0 ws pos = .ok (s, pos') → pos + 2 ≤ pos') ∧
    (∀ e, from_c0 ws pos = .error e → e = .Panic) := by
  rw [from_c0]
  rcases get_and_seek_eq ws pos with h | ⟨a, ha, h⟩ <;> rw [h] <;> try dsimp only
  · exact ⟨fun s pos' h' => (by cases h'), fun e h' => (by cases h'; rfl)⟩
  · rcases get_and_seek_eq ws (pos + 1) with h1 | ⟨n, hn, h1⟩ <;>
      rw [h1] <;> try dsimp only
    · exact ⟨fun s pos' h' => (by cases h'), fun e h' => (by cases h'; rfl)⟩
    · rcases h2 : c0_loop ws (pos + 1 + 1) n with e | ⟨body, pos3⟩ <;> try dsimp only
      · refine ⟨fun s pos' h' => (by cases h'), fun e' h' => ?_⟩
        cases h'
        exact (c0_loop_spec ws n (pos + 1 + 1)).2 _ h2
      · refine ⟨fun s pos' h' => ?_, fun e' h' => (by cases h')⟩
        cases h'
        have := (c0_loop_spec ws n (pos + 1 + 1)).1 _ _ h2
        omega

/-- The `from_c2` instruction loop never rewinds, and every failure is a
panic. -/
theorem c2_loop_spec (ws : List Nat) :
    ∀ fuel pos,
      (∀ s pos', c2_loop ws fuel pos = .ok (s, pos') → pos ≤ pos') ∧
      (∀ e, c2_loop ws fuel pos = .error e → e = .Panic) := by
  intro fuel
  induction fuel with
  | zero =>
    intro pos
    rw [c2_loop]
    split
    · exact ⟨fun s pos' h => (by cases h), fun e h => (by cases h; rfl)⟩
    · exact ⟨fun s pos' h => (by cases h; exact le_refl _), fun e h => (by cases h)⟩
  | succ fuel ih =>
    intro pos
    rw [c2_loop]
    split
    · rcases get_and_seek_eq ws pos with h | ⟨l, hl, h⟩ <;> rw [h] <;> try dsimp only
      · exact ⟨fun s pos' h' => (by cases h'), fun e h' => (by cases h'; rfl)⟩
      · rcases get_and_seek_eq ws (pos + 1) with h1 | ⟨r, hr, h1⟩ <;>
          rw [h1] <;> try dsimp only
        · exact ⟨fun s pos' h' => (by cases h'), fun e h' => (by cases h'; rfl)⟩
        · constructor
          · intro s pos' h'
            split at h'
            · cases h'; omega
            · split at h'
              · cases h'; omega
              · rcases h2 : c2_loop ws fuel (pos + 1 + 1) with e | ⟨rest, pos3⟩ <;>
                  rw [h2] at h' <;> try dsimp only at h'
                · cases h'
                · cases h'
                  have := (ih (pos + 1 + 1)).1 _ _ h2
                  omega
          · intro e h'
            split at h'
            · cases h'
            · split at h'
              · cases h'
              · rcases h2 : c2_loop ws fuel (pos + 1 + 1) with e' | ⟨rest, pos3⟩ <;>
                  rw [h2] at h' <;> try dsimp only at h'
                · cases h'
                  exact (ih (pos + 1 + 1)).2 _ h2
                · cases h'
    · exact ⟨fun s pos' h => (by cases h; exact le_refl _), fun e h => (by cases h)⟩

/-- On success `from_c2` consumes at least two words; on failure it
panics. -/
theorem from_c2_spec (ws : List Nat) (pos : Nat) (larger : Bool) :
    (∀ s pos', from_c2 ws pos larger = .ok (s, pos') → pos + 2 ≤ pos') ∧
    (∀ e, from_c2 ws pos larger = .error e → e = .Panic) := by
  rw [from_c2]
  rcases get_code_address_eq ws pos larger with h | ⟨raw, hraw, h⟩ <;>
    rw [h] <;> try dsimp only
  · exact ⟨fun s pos' h' => (by cases h'), fun e h' => (by cases h'; rfl)⟩
  · rcases get_and_seek_eq ws (pos + 1) with h1 | ⟨n, hn, h1⟩ <;>
      rw [h1] <;> try dsimp only
    · exact ⟨fun s pos' h' => (by cases h'), fun e h' => (by cases h'; rfl)⟩
    · rcases h2 : c2_loop ws ws.length (pos + 1 + 1) with e | ⟨body, pos3⟩ <;> try dsimp only
      · refine ⟨fun s pos' h' => (by cases h'), fun e' h' => ?_⟩
        cases h'
        exact (c2_loop_spec ws ws.length (pos + 1 + 1)).2 _ h2
      · refine ⟨fun s pos' h' => ?_, fun e' h' => (by cases h')⟩
        cases h'
        have := (c2_loop_spec ws ws.length (pos + 1 + 1)).1 _ _ h2
        omega

/-- Every record decoder reached by `dispatch_record` advances the
position by at least two on success, and every failure is either a panic
or an `InvalidType` report. -/
theorem dispatch_record_spec (ws : List Nat) (pos : Nat) :
    (∀ s pos', dispatch_record ws pos = .ok (s, pos') → pos + 2 ≤ pos') ∧
    (∀ e, dispatch_record ws pos = .error e →
      e = .Panic ∨ ∃ ln v, e = .InvalidType ln v) := by
  rw [dispatch_record]
  cases hw : ws[pos]? with
  | none =>
    exact ⟨fun s pos' h => (by cases h),
           fun e h => (by cases h; exact Or.inl rfl)⟩
  | some current =>
    try dsimp only
    constructor
    · intro s pos' h'
      split at h'
      · exact le_of_eq ((from_02_spec ws pos _).1 _ _ h').symm
      · split at h'
        · exact le_of_eq ((from_04_spec ws pos _).1 _ _ h').symm
        · split at h'
          · exact (from_06_spec ws pos _).1 _ _ h'
          · split at h'
            · exact le_of_eq ((from_80_spec ws pos).1 _ _ h').symm
            · split at h'
              · exact le_of_eq ((from_82_spec ws pos).1 _ _ h').symm
              · split at h'
                · exact le_of_eq ((from_84_94_spec ws pos).1 _ _ h').symm
                · split at h'
                  · exact (from_c0_spec ws pos).1 _ _ h'
                  · split at h'
                    · exact (from_c2_spec ws pos _).1 _ _ h'
                    · split at h'
                      · exact le_of_eq ((from_c6_spec ws pos _).1 _ _ h').symm
                      · cases h'
    · intro e h'
      split at h'
      · exact Or.inl ((from_02_spec ws pos _).2 _ h')
      · split at h'
        · exact Or.inl ((from_04_spec ws pos _).2 _ h')
        · split at h'
          · exact Or.inl ((from_06_spec ws pos _).2 _ h')
          · split at h'
            · exact Or.inl ((from_80_spec ws pos).2 _ h')
            · split at h'
              · exact Or.inl ((from_82_spec ws pos).2 _ h')
              · split at h'
                · exact Or.inl ((from_84_94_spec ws pos).2 _ h')
                · split at h'
                  · exact Or.inl ((from_c0_spec ws pos).2 _ h')
                  · split at h'
                    · exact Or.inl ((from_c2_spec ws pos _).2 _ h')
                    · split at h'
                      · exact Or.inl ((from_c6_spec ws pos _).2 _ h')
                      · cases h'
                        exact Or.inr ⟨pos / 2 + 1, current, rfl⟩

/-- `get_and_seek` panics exactly on reads at or past the end of the
sequence. -/
theorem get_and_seek_panic_iff (ws : List Nat) (pos : Nat) :
    get_and_seek ws pos = .error .Panic ↔ ws.length ≤ pos := by
  constructor
  · intro h
    rw [get_and_seek] at h
    cases hv : ws[pos]? with
    | none => exact List.getElem?_eq_none_iff.mp hv
    | some v => rw [hv] at h; cases h
  · intro h
    rw [get_and_seek, List.getElem?_eq_none h]

/-- In-bounds form of `get_and_seek`. -/
theorem get_and_seek_in (ws : List Nat) (pos : Nat) (h : pos < ws.length) :
    get_and_seek ws pos = .ok (ws[pos], pos + 1) := by
  rw [get_and_seek, List.getElem?_eq_getElem h]

/-- In-bounds form of `get_code_address`. -/
theorem get_code_address_in (ws : List Nat) (pos : Nat) (larger : Bool)
    (h : pos < ws.length) :
    get_code_address ws pos larger = .ok (resolve ws[pos] larger, pos + 1) := by
  rw [get_code_address, get_and_seek_in ws pos h]

/-- A `some` result of `getElem?` implies the index is in bounds. -/
theorem getElem?_some_lt {ws : List Nat} {pos v : Nat}
    (h : ws[pos]? = some v) : pos < ws.length := by
  by_contra hc
  rw [List.getElem?_eq_none (by omega)] at h
  cases h

/-- `read_words` succeeds whenever the requested words are in bounds. -/
theorem read_words_total (ws : List Nat) :
    ∀ k pos, pos + k ≤ ws.length →
      ∃ vs, read_words ws pos k = .ok (vs, pos + k) := by
  intro k
  induction k with
  | zero => exact fun pos _ => ⟨[], rfl⟩
  | succ k ih =>
    intro pos hle
    obtain ⟨vs, hrec⟩ := ih (pos + 1) (by omega)
    refine ⟨ws[pos] :: vs, ?_⟩
    rw [read_words, get_and_seek_in ws pos (by omega)]
    try dsimp only
    rw [hrec]
    try dsimp only
    rw [(show pos + 1 + k = pos + (k + 1) by omega)]

/-- The `from_c0` instruction loop succeeds whenever its declared extent
is in bounds. -/
theorem c0_loop_total (ws : List Nat) :
    ∀ n pos, pos + 2 * n ≤ ws.length →
      ∃ s pos', c0_loop ws pos n = .ok (s, pos') := by
  intro n
  induction n with
  | zero => exact fun pos _ => ⟨"", pos, rfl⟩
  | succ n ih =>
    intro pos hle
    rw [c0_loop, get_and_seek_in ws pos (by omega)]
    try dsimp only
    rw [get_and_seek_in ws (pos + 1) (by omega)]
    try dsimp only
    by_cases hbl : ws[pos] = 0x4E800020
    · rw [if_pos hbl]
      exact ⟨"blr\n", pos + 1 + 1, rfl⟩
    · rw [if_neg hbl]
      try dsimp only
      by_cases hbr : ws[pos + 1] = 0x4E800020
      · rw [if_pos hbr]
        exact ⟨_, pos + 1 + 1, rfl⟩
      · rw [if_neg hbr]
        try dsimp only
        obtain ⟨s, pos', hrec⟩ := ih (pos + 1 + 1) (by omega)
        rw [hrec]
        exact ⟨_, pos', rfl⟩

/-- `from_02` succeeds whenever its two words are in bounds. -/
theorem from_02_total (ws : List Nat) (pos : Nat) (larger : Bool)
    (hle : pos + 2 ≤ ws.length) :
    ∃ s, from_02 ws pos larger = .ok (s, pos + 2) := by
  rw [from_02, get_code_address_in ws pos larger (by omega)]
  try dsimp only
  rw [get_and_seek_in ws (pos + 1) (by omega)]
  exact ⟨_, rfl⟩

/-- `from_04` succeeds whenever its two words are in bounds. -/
theorem from_04_total (ws : List Nat) (pos : Nat) (larger : Bool)
    (hle : pos + 2 ≤ ws.length) :
    ∃ s, from_04 ws pos larger = .ok (s, pos + 2) := by
  rw [from_04, get_code_address_in ws pos larger (by omega)]
  try dsimp only
  rw [get_and_seek_in ws (pos + 1) (by omega)]
  exact ⟨_, rfl⟩

/-- `from_80` succeeds whenever its two words are in bounds. -/
theorem from_80_total (ws : List Nat) (pos : Nat)
    (hle : pos + 2 ≤ ws.length) :
    ∃ s, from_80 ws pos = .ok (s, pos + 2) := by
  rw [from_80, get_and_seek_in ws pos (by omega)]
  try dsimp only
  rw [get_and_seek_in ws (pos + 1) (by omega)]
  exact ⟨_, rfl⟩

/-- `from_82` succeeds whenever its two words are in bounds. -/
theorem from_82_total (ws : List Nat) (pos : Nat)
    (hle : pos + 2 ≤ ws.length) :
    ∃ s, from_82 ws pos = .ok (s, pos + 2) := by
  rw [from_82, get_and_seek_in ws pos (by omega)]
  try dsimp only
  rw [get_and_seek_in ws (pos + 1) (by omega)]
  exact ⟨_, rfl⟩

/-- `from_c6` succeeds whenever its two words are in bounds. -/
theorem from_c6_total (ws : List Nat) (pos : Nat) (larger : Bool)
    (hle : pos + 2 ≤ ws.length) :
    ∃ s, from_c6 ws pos larger = .ok (s, pos + 2) := by
  rw [from_c6, get_code_address_in ws pos larger (by omega)]
  try dsimp only
  rw [get_and_seek_in ws (pos + 1) (by omega)]
  exact ⟨_, rfl⟩

/-- `from_84_94` succeeds whenever its two words are in bounds and the
tag byte routed by the dispatcher is `0x84` or `0x94`. -/
theorem from_84_94_total (ws : List Nat) (pos : Nat)
    (hb : (ws.getD pos 0 &&& 0xFF000000) >>> 0x18 = 0x84 ∨
          (ws.getD pos 0 &&& 0xFF000000) >>> 0x18 = 0x94)
    (hle : pos + 2 ≤ ws.length) :
    ∃ s, from_84_94 ws pos = .ok (s, pos + 2) := by
  have h0 : pos < ws.length := by omega
  have hget : ws.getD pos 0 = ws[pos] := List.getD_eq_getElem ws 0 h0
  rw [hget] at hb
  rw [from_84_94, get_and_seek_in ws pos h0]
  try dsimp only
  rw [value_size_value_eq_zero, if_pos rfl]
  try dsimp only
  rw [get_and_seek_in ws (pos + 1) (by omega)]
  try dsimp only
  rw [sub_subtype_eq_zero]
  rcases hb with hb | hb <;> rw [hb]
  · rw [if_pos rfl, if_pos rfl]
    exact ⟨_, rfl⟩
  · rw [if_neg (by decide), if_pos rfl]
    exact ⟨_, rfl⟩

/-- `from_06` succeeds whenever its declared extent
(`2 + ⌈byte_count/4⌉` words) is in bounds. -/
theorem from_06_total (ws : List Nat) (pos : Nat) (larger : Bool) (n : Nat)
    (hn : ws[pos + 1]? = some n)
    (hle : pos + 2 + (n + 3) / 4 ≤ ws.length) :
    ∃ s, from_06 ws pos larger = .ok (s, pos + 2 + (n + 3) / 4) := by
  have h1 : pos + 1 < ws.length := getElem?_some_lt hn
  have hn' : ws[pos + 1] = n := by
    rw [List.getElem?_eq_getElem h1] at hn
    exact Option.some.inj hn
  rw [from_06, get_code_address_in ws pos larger (by omega)]
  try dsimp only
  rw [get_and_seek_in ws (pos + 1) (by omega), hn']
  try dsimp only
  obtain ⟨vs, hrw⟩ := read_words_total ws ((n + 3) / 4) (pos + 1 + 1) (by omega)
  rw [hrw]
  try dsimp only
  split
  · split
    · exact ⟨_, rfl⟩
    · exact ⟨_, rfl⟩
  · exact ⟨_, rfl⟩

/-- `from_c0` succeeds whenever its declared extent
(`2 + 2·line_count` words) is in bounds. -/
theorem from_c0_total (ws : List Nat) (pos : Nat) (n : Nat)
    (hn : ws[pos + 1]? = some n)
    (hle : pos + 2 + 2 * n ≤ ws.length) :
    ∃ s pos', from_c0 ws pos = .ok (s, pos') := by
  have h1 : pos + 1 < ws.length := getElem?_some_lt hn
  have hn' : ws[pos + 1] = n := by
    rw [List.getElem?_eq_getElem h1] at hn
    exact Option.some.inj hn
  rw [from_c0, get_and_seek_in ws pos (by omega)]
  try dsimp only
  rw [get_and_seek_in ws (pos + 1) (by omega), hn']
  try dsimp only
  obtain ⟨s, pos', hrec⟩ := c0_loop_total ws n (pos + 1 + 1) (by omega)
  rw [hrec]
  exact ⟨_, pos', rfl⟩

/-- Totality of the `from_c2` instruction loop on pair-aligned input:
when an even number of words remains and the fuel covers the remainder,
the loop always succeeds (it can only fail by reading the second word of
a pair past the end, which needs an odd remainder). -/
theorem c2_loop_total (ws : List Nat) :
    ∀ fuel pos, (ws.length - pos) % 2 = 0 → ws.length - pos ≤ 2 * fuel →
      ∃ s pos', c2_loop ws fuel pos = .ok (s, pos') := by
  intro fuel
  induction fuel with
  | zero =>
    intro pos heven hle
    rw [c2_loop, if_neg (by omega : ¬ pos < ws.length)]
    exact ⟨"", pos, rfl⟩
  | succ fuel ih =>
    intro pos heven hle
    by_cases hlt : pos < ws.length
    · have hl : ws[pos]? = some ws[pos] := List.getElem?_eq_getElem hlt
      have hlt1 : pos + 1 < ws.length := by omega
      have hr : ws[pos + 1]? = some ws[pos + 1] := List.getElem?_eq_getElem hlt1
      rw [c2_loop, if_pos hlt,
          (show get_and_seek ws pos = .ok (ws[pos], pos + 1) by
            rw [get_and_seek, hl])]
      try dsimp only
      rw [(show get_and_seek ws (pos + 1) = .ok (ws[pos + 1], pos + 1 + 1) by
            rw [get_and_seek, hr])]
      try dsimp only
      by_cases hterm1 : ws[pos] = 0x60000000 ∧ ws[pos + 1] = 0
      · rw [if_pos hterm1]
        exact ⟨"", pos + 1 + 1, rfl⟩
      · rw [if_neg hterm1]
        try dsimp only
        by_cases hterm2 : ws[pos + 1] = 0x60000000
        · rw [if_pos hterm2]
          exact ⟨code_to_instruction ws[pos] ++ "\n", pos + 1 + 1, rfl⟩
        · rw [if_neg hterm2]
          try dsimp only
          obtain ⟨s', pos', hrec⟩ := ih (pos + 1 + 1) (by omega) (by omega)
          rw [hrec]
          exact ⟨code_to_instruction ws[pos] ++ "\n"
                 ++ code_to_instruction ws[pos + 1] ++ "\n" ++ s', pos', rfl⟩
    · rw [c2_loop, if_neg hlt]
      exact ⟨"", pos, rfl⟩

/-- `from_c2` succeeds whenever its two header words are in bounds and
the remainder after them is pair-aligned. -/
theorem from_c2_total (ws : List Nat) (pos : Nat) (larger : Bool)
    (hle : pos + 2 ≤ ws.length)
    (heven : (ws.length - (pos + 2)) % 2 = 0) :
    ∃ s pos', from_c2 ws pos larger = .ok (s, pos') := by
  rw [from_c2, get_code_address_in ws pos larger (by omega)]
  try dsimp only
  rw [get_and_seek_in ws (pos + 1) (by omega)]
  try dsimp only
  obtain ⟨s, pos', hrec⟩ :=
    c2_loop_total ws ws.length (pos + 1 + 1) (by omega) (by omega)
  rw [hrec]
  exact ⟨_, pos', rfl⟩

/-- A record boundary whose tag is supported and whose declared extent
fits inside the sequence always decodes successfully: no crash and no
error of any kind. -/
theorem dispatch_record_total (ws : List Nat) (pos : Nat) (v : Nat)
    (hv : ws[pos]? = some v)
    (hsupp : supported_tag ((v &&& 0xFF000000) >>> 0x18) = true)
    (hext : record_extent_ok ws pos = true) :
    ∃ s pos', dispatch_record ws pos = .ok (s, pos') := by
  have h0 : pos < ws.length := getElem?_some_lt hv
  have hv' : ws[pos] = v := by
    rw [List.getElem?_eq_getElem h0] at hv
    exact Option.some.inj hv
  rw [record_extent_ok, hv] at hext
  try dsimp only at hext
  simp only [supported_tag, Bool.or_eq_true, beq_iff_eq] at hsupp
  rcases hsupp with ((((((((((((hb | hb) | hb) | hb) | hb) | hb) | hb) | hb)
    | hb) | hb) | hb) | hb) | hb) | hb <;>
    rw [hb] at hext <;>
    rw [dispatch_record, hv] <;> try dsimp only
  all_goals rw [hb]
  · rw [if_neg (by decide), if_neg (by decide), if_neg (by decide)] at hext
    rw [if_pos (by decide)]
    obtain ⟨s, hs⟩ := from_02_total ws pos ((0x02 : Nat) % 2 != 0)
      (of_decide_eq_true hext)
    exact ⟨s, pos + 2, hs⟩
  · rw [if_neg (by decide), if_neg (by decide), if_neg (by decide)] at hext
    rw [if_pos (by decide)]
    obtain ⟨s, hs⟩ := from_02_total ws pos ((0x03 : Nat) % 2 != 0)
      (of_decide_eq_true hext)
    exact ⟨s, pos + 2, hs⟩
  · rw [if_neg (by decide), if_neg (by decide), if_neg (by decide)] at hext
    rw [if_neg (by decide), if_pos (by decide)]
    obtain ⟨s, hs⟩ := from_04_total ws pos ((0x04 : Nat) % 2 != 0)
      (of_decide_eq_true hext)
    exact ⟨s, pos + 2, hs⟩
  · rw [if_neg (by decide), if_neg (by decide), if_neg (by decide)] at hext
    rw [if_neg (by decide), if_pos (by decide)]
    obtain ⟨s, hs⟩ := from_04_total ws pos ((0x05 : Nat) % 2 != 0)
      (of_decide_eq_true hext)
    exact ⟨s, pos + 2, hs⟩
  · rw [if_pos (by decide)] at hext
    rw [if_neg (by decide), if_neg (by decide), if_pos (by decide)]
    cases hn : ws[pos + 1]? with
    | none => rw [hn] at hext; cases hext
    | some n =>
      rw [hn] at hext
      obtain ⟨s, hs⟩ := from_06_total ws pos ((0x06 : Nat) % 2 != 0) n hn
        (of_decide_eq_true hext)
      exact ⟨s, pos + 2 + (n + 3) / 4, hs⟩
  · rw [if_neg (by decide), if_neg (by decide), if_neg (by decide)] at hext
    rw [if_neg (by decide), if_neg (by decide), if_neg (by decide),
        if_pos (by decide)]
    obtain ⟨s, hs⟩ := from_80_total ws pos (of_decide_eq_true hext)
    exact ⟨s, pos + 2, hs⟩
  · rw [if_neg (by decide), if_neg (by decide), if_neg (by decide)] at hext
    rw [if_neg (by decide), if_neg (by decide), if_neg (by decide),
        if_neg (by decide), if_pos (by decide)]
    obtain ⟨s, hs⟩ := from_82_total ws pos (of_decide_eq_true hext)
    exact ⟨s, pos + 2, hs⟩
  · rw [if_neg (by decide), if_neg (by decide), if_neg (by decide)] at hext
    rw [if_neg (by decide), if_neg (by decide), if_neg (by decide),
        if_neg (by decide), if_neg (by decide), if_pos (by decide)]
    obtain ⟨s, hs⟩ := from_84_94_total ws pos
      (by rw [List.getD_eq_getElem ws 0 h0, hv', hb]; exact Or.inl rfl)
      (of_decide_eq_true hext)
    exact ⟨s, pos + 2, hs⟩
  · rw [if_neg (by decide), if_neg (by decide), if_neg (by decide)] at hext
    rw [if_neg (by decide), if_neg (by decide), if_neg (by decide),
        if_neg (by decide), if_neg (by decide), if_pos (by decide)]
    obtain ⟨s, hs⟩ := from_84_94_total ws pos
      (by rw [List.getD_eq_getElem ws 0 h0, hv', hb]; exact Or.inr rfl)
      (of_decide_eq_true hext)
    exact ⟨s, pos + 2, hs⟩
  · rw [if_neg (by decide), if_pos (by decide)] at hext
    rw [if_neg (by decide), if_neg (by decide), if_neg (by decide),
        if_neg (by decide), if_neg (by decide), if_neg (by decide),
        if_pos (by decide)]
    cases hn : ws[pos + 1]? with
    | none => rw [hn] at hext; cases hext
    | some n =>
      rw [hn] at hext
      obtain ⟨s, pos', hs⟩ := from_c0_total ws pos n hn
        (of_decide_eq_true hext)
      exact ⟨s, pos', hs⟩
  · rw [if_neg (by decide), if_neg (by decide), if_pos (by decide)] at hext
    rw [if_neg (by decide), if_neg (by decide), if_neg (by decide),
        if_neg (by decide), if_neg (by decide), if_neg (by decide),
        if_neg (by decide), if_pos (by decide)]
    rw [Bool.and_eq_true] at hext
    exact from_c2_total ws pos ((0xC2 : Nat) % 2 != 0)
      (of_decide_eq_true hext.1) (of_decide_eq_true hext.2)
  · rw [if_neg (by decide), if_neg (by decide), if_pos (by decide)] at hext
    rw [if_neg (by decide), if_neg (by decide), if_neg (by decide),
        if_neg (by decide), if_neg (by decide), if_neg (by decide),
        if_neg (by decide), if_pos (by decide)]
    rw [Bool.and_eq_true] at hext
    exact from_c2_total ws pos ((0xC3 : Nat) % 2 != 0)
      (of_decide_eq_true hext.1) (of_decide_eq_true hext.2)
  · rw [if_neg (by decide), if_neg (by decide), if_neg (by decide)] at hext
    rw [if_neg (by decide), if_neg (by decide), if_neg (by decide),
        if_neg (by decide), if_neg (by decide), if_neg (by decide),
        if_neg (by decide), if_neg (by decide), if_pos (by decide)]
    obtain ⟨s, hs⟩ := from_c6_total ws pos ((0xC6 : Nat) % 2 != 0)
      (of_decide_eq_true hext)
    exact ⟨s, pos + 2, hs⟩
  · rw [if_neg (by decide), if_neg (by decide), if_neg (by decide)] at hext
    rw [if_neg (by decide), if_neg (by decide), if_neg (by decide),
        if_neg (by decide), if_neg (by decide), if_neg (by decide),
        if_neg (by decide), if_neg (by decide), if_pos (by decide)]
    obtain ⟨s, hs⟩ := from_c6_total ws pos ((0xC7 : Nat) % 2 != 0)
      (of_decide_eq_true hext)
    exact ⟨s, pos + 2, hs⟩

/-- An `InvalidType` report from the dispatcher names exactly the word at
the current record boundary, whose tag is unsupported, with the 1-based
line number `pos / 2 + 1`. -/
theorem dispatch_record_invalid (ws : List Nat) (pos : Nat) (ln v : Nat)
    (h : dispatch_record ws pos = .error (.InvalidType ln v)) :
    ws[pos]? = some v ∧
    supported_tag ((v &&& 0xFF000000) >>> 0x18) = false ∧
    ln = pos / 2 + 1 := by
  rw [dispatch_record] at h
  cases hv : ws[pos]? with
  | none => rw [hv] at h; simp at h
  | some current =>
    rw [hv] at h
    try dsimp only at h
    split at h
    · simpa using (from_02_spec ws pos _).2 _ h
    · split at h
      · simpa using (from_04_spec ws pos _).2 _ h
      · split at h
        · simpa using (from_06_spec ws pos _).2 _ h
        · split at h
          · simpa using (from_80_spec ws pos).2 _ h
          · split at h
            · simpa using (from_82_spec ws pos).2 _ h
            · split at h
              · simpa using (from_84_94_spec ws pos).2 _ h
              · split at h
                · simpa using (from_c0_spec ws pos).2 _ h
                · split at h
                  · simpa using (from_c2_spec ws pos _).2 _ h
                  · split at h
                    · simpa using (from_c6_spec ws pos _).2 _ h
                    · cases h
                      refine ⟨rfl, ?_, rfl⟩
                      simp only [supported_tag, Bool.or_eq_false_iff,
                        beq_eq_false_iff_ne, ne_eq]
                      omega

/-- Every `decode_well_formed` input makes the dispatcher loop succeed.
The walk and the loop share the same fuel. -/
theorem convert_loop_wf (ws : List Nat) :
    ∀ fuel pos, decode_well_formed ws fuel pos = true →
      ∃ s, convert_loop ws fuel pos = .ok s := by
  intro fuel
  induction fuel with
  | zero =>
    intro pos h
    rw [decode_well_formed] at h
    have hge : ws.length ≤ pos := of_decide_eq_true h
    rw [convert_loop, if_neg (by omega : ¬ pos < ws.length)]
    exact ⟨"", rfl⟩
  | succ fuel ih =>
    intro pos h
    rw [decode_well_formed] at h
    split at h
    case isFalse hpos =>
      rw [convert_loop, if_neg hpos]
      exact ⟨"", rfl⟩
    case isTrue hpos =>
      cases hv : ws[pos]? with
      | none => rw [hv] at h; cases h
      | some v =>
        rw [hv] at h
        try dsimp only at h
        rw [Bool.and_eq_true, Bool.and_eq_true] at h
        obtain ⟨⟨hsupp, hext⟩, hrest⟩ := h
        obtain ⟨s0, pos', hd⟩ := dispatch_record_total ws pos v hv hsupp hext
        rw [hd] at hrest
        try dsimp only at hrest
        obtain ⟨rest, hr⟩ := ih pos' hrest
        rw [convert_loop, if_pos hpos, hd]
        try dsimp only
        rw [hr]
        exact ⟨_, rfl⟩

/-- An `InvalidType` failure of the dispatcher loop comes from a reached
record boundary whose word carries an unsupported tag. -/
theorem convert_loop_invalid (ws : List Nat) :
    ∀ fuel pos ln v,
      convert_loop ws fuel pos = .error (.InvalidType ln v) →
      ∃ p, p < ws.length ∧ ws[p]? = some v ∧
        supported_tag ((v &&& 0xFF000000) >>> 0x18) = false ∧
        ln = p / 2 + 1 := by
  intro fuel
  induction fuel with
  | zero =>
    intro pos ln v h
    rw [convert_loop] at h
    split at h
    · simp at h
    · cases h
  | succ fuel ih =>
    intro pos ln v h
    rw [convert_loop] at h
    split at h
    case isTrue hpos =>
      rcases hd : dispatch_record ws pos with e | ⟨rs, pos1⟩ <;>
        rw [hd] at h <;> try dsimp only at h
      · cases h
        obtain ⟨hv, hns, hln⟩ := dispatch_record_invalid ws pos ln v hd
        exact ⟨pos, hpos, hv, hns, hln⟩
      · rcases hr : convert_loop ws fuel pos1 with e | rest <;>
          rw [hr] at h <;> try dsimp only at h
        · cases h
          exact ih pos1 ln v hr
        · cases h
    case isFalse hpos => cases h

/-- Fuel irrelevance for the dispatcher loop: the loop terminates within
any fuel budget covering half the remaining words (each iteration
consumes one unit of fuel and advances the position by at least two), so
all such budgets compute the same result.  This is the termination
argument for `convert_from_gecko_code_values`. -/
theorem convert_loop_fuel (ws : List Nat) :
    ∀ fuel fuel' pos, ws.length - pos ≤ 2 * fuel → ws.length - pos ≤ 2 * fuel' →
      convert_loop ws fuel pos = convert_loop ws fuel' pos := by
  intro fuel
  induction fuel with
  | zero =>
    intro fuel' pos h h'
    have hpos : ¬ pos < ws.length := by omega
    cases fuel' with
    | zero => rfl
    | succ g =>
      rw [convert_loop, convert_loop, if_neg hpos, if_neg hpos]
  | succ fuel ih =>
    intro fuel' pos h h'
    by_cases hpos : pos < ws.length
    · cases fuel' with
      | zero => omega
      | succ g =>
        rw [convert_loop, convert_loop, if_pos hpos, if_pos hpos]
        rcases hd : dispatch_record ws pos with e | ⟨rs, pos1⟩
        · rfl
        · have hadv := (dispatch_record_spec ws pos).1 _ _ hd
          have heq : convert_loop ws fuel pos1 = convert_loop ws g pos1 :=
            ih g pos1 (by omega) (by omega)
          try dsimp only
          rw [heq]
    · cases fuel' with
      | zero => rw [convert_loop, convert_loop, if_neg hpos, if_neg hpos]
      | succ g => rw [convert_loop, convert_loop, if_neg hpos, if_neg hpos]

/-- Outcome analysis of the dispatcher loop: started strictly inside the
sequence it never returns the empty string on success (each record is
followed by the record separator), and each failure is a panic or an
`InvalidType` report. -/
theorem convert_loop_spec (ws : List Nat) :
    ∀ fuel pos,
      (∀ s, convert_loop ws fuel pos = .ok s → pos < ws.length → s ≠ "") ∧
      (∀ e, convert_loop ws fuel pos = .error e →
        e = .Panic ∨ ∃ ln v, e = .InvalidType ln v) := by
  intro fuel
  induction fuel with
  | zero =>
    intro pos
    rw [convert_loop]
    split
    · exact ⟨fun s h => (by cases h), fun e h => (by cases h; exact Or.inl rfl)⟩
    · refine ⟨fun s h hlt => ?_, fun e h => (by cases h)⟩
      next hge => exact absurd hlt hge
  | succ fuel ih =>
    intro pos
    rw [convert_loop]
    split
    · rcases hd : dispatch_record ws pos with e | ⟨rs, pos1⟩ <;> try dsimp only
      · refine ⟨fun s h => (by cases h), fun e' h => ?_⟩
        cases h
        exact (dispatch_record_spec ws pos).2 _ hd
      · rcases hr : convert_loop ws fuel pos1 with e | rest <;> try dsimp only
        · refine ⟨fun s h => (by cases h), fun e' h => ?_⟩
          cases h
          exact (ih pos1).2 _ hr
        · refine ⟨fun s h hlt => ?_, fun e' h => (by cases h)⟩
          cases h
          intro hcon
          have hlen := congrArg String.length hcon
          simp only [String.length_append] at hlen
          have : ("\n\n// ---\n\n" : String).length = 10 := by decide
          simp [this] at hlen
    · refine ⟨fun s h hlt => ?_, fun e h => (by cases h)⟩
      next hge => exact absurd hlt hge

/-- Characterization of the `from_c0` instruction loop: on success it has
consumed `k ≤ n` whole pairs; every pair strictly before the last
consumed one is free of the `blr` terminator `0x4E800020`; and if any
consumed pair contains the terminator, the rendered text ends with
`blr\n` and consumption stopped right after that pair. -/
theorem c0_loop_run (ws : List Nat) :
    ∀ n pos s pos', c0_loop ws pos n = .ok (s, pos') →
      ∃ k, k ≤ n ∧ pos' = pos + 2 * k ∧
        (∀ j, j + 1 < k → ws[pos + 2 * j]? ≠ some 0x4E800020 ∧
          ws[pos + 2 * j + 1]? ≠ some 0x4E800020) ∧
        (∀ j, j < k →
          (ws[pos + 2 * j]? = some 0x4E800020 ∨
           ws[pos + 2 * j + 1]? = some 0x4E800020) →
          ∃ t, s = t ++ "blr\n" ∧ pos' = pos + 2 * j + 2) := by
  intro n
  induction n with
  | zero =>
    intro pos s pos' h
    cases h
    exact ⟨0, by omega, by omega,
           fun j hj => absurd hj (by omega),
           fun j hj => absurd hj (by omega)⟩
  | succ n ih =>
    intro pos s pos' h
    rw [c0_loop] at h
    rcases get_and_seek_eq ws pos with hE | ⟨l, hl, hE⟩ <;>
      rw [hE] at h <;> try dsimp only at h
    · cases h
    · rcases get_and_seek_eq ws (pos + 1) with h1 | ⟨r, hr, h1⟩ <;>
        rw [h1] at h <;> try dsimp only at h
      · cases h
      · by_cases hbl : l = 0x4E800020
        · rw [if_pos hbl] at h
          cases h
          refine ⟨1, by omega, by omega,
                  fun j hj => absurd hj (by omega), fun j hj _ => ?_⟩
          have hj0 : j = 0 := by omega
          subst hj0
          exact ⟨"", rfl, by omega⟩
        · rw [if_neg hbl] at h
          try dsimp only at h
          by_cases hbr : r = 0x4E800020
          · rw [if_pos hbr] at h
            cases h
            refine ⟨1, by omega, by omega,
                    fun j hj => absurd hj (by omega), fun j hj _ => ?_⟩
            have hj0 : j = 0 := by omega
            subst hj0
            exact ⟨code_to_instruction l ++ "\n", rfl, by omega⟩
          · rw [if_neg hbr] at h
            try dsimp only at h
            rcases h2 : c0_loop ws (pos + 1 + 1) n with e | ⟨rest, pos3⟩ <;>
              rw [h2] at h <;> try dsimp only at h
            · cases h
            · cases h
              obtain ⟨k, hk, hpos3, hnb, hstop⟩ := ih (pos + 1 + 1) rest _ h2
              refine ⟨k + 1, by omega, by omega, ?_, ?_⟩
              · intro j hj
                cases j with
                | zero =>
                  rw [(show pos + 2 * 0 = pos by omega),
                      (show pos + 2 * 0 + 1 = pos + 1 by omega), hl, hr]
                  exact ⟨fun hc => hbl (Option.some.inj hc),
                         fun hc => hbr (Option.some.inj hc)⟩
                | succ j' =>
                  have hside := hnb j' (by omega)
                  rw [(show pos + 2 * (j' + 1) = pos + 1 + 1 + 2 * j' by omega)]
                  exact hside
              · intro j hj hb
                cases j with
                | zero =>
                  exfalso
                  rw [(show pos + 2 * 0 = pos by omega),
                      (show pos + 2 * 0 + 1 = pos + 1 by omega), hl, hr] at hb
                  rcases hb with hb | hb
                  · exact hbl (Option.some.inj hb)
                  · exact hbr (Option.some.inj hb)
                | succ j' =>
                  have hb' : ws[pos + 1 + 1 + 2 * j']? = some 0x4E800020 ∨
                      ws[pos + 1 + 1 + 2 * j' + 1]? = some 0x4E800020 := by
                    rcases hb with hb | hb
                    · left
                      rw [(show pos + 1 + 1 + 2 * j' = pos + 2 * (j' + 1) by omega)]
                      exact hb
                    · right
                      rw [(show pos + 1 + 1 + 2 * j' + 1 = pos + 2 * (j' + 1) + 1 by omega)]
                      exact hb
                  obtain ⟨t, hts, hstop'⟩ := hstop j' (by omega) hb'
                  refine ⟨code_to_instruction l ++ "\n"
                    ++ code_to_instruction r ++ "\n" ++ t, ?_, by omega⟩
                  rw [hts]
                  simp [String.append_assoc]

/-- Characterization of the `from_c2` instruction loop: on success it has
consumed whole pairs; every pair strictly before the last consumed one is
non-terminal; and the run ends either at (or past) the end of the
sequence or right after a terminal pair. -/
theorem c2_loop_run (ws : List Nat) :
    ∀ fuel pos s pos', c2_loop ws fuel pos = .ok (s, pos') →
      ∃ k, pos' = pos + 2 * k ∧
        (∀ j, j + 1 < k → ¬ c2_pair_terminal ws (pos + 2 * j)) ∧
        (ws.length ≤ pos' ∨ (0 < k ∧ c2_pair_terminal ws (pos + 2 * (k - 1)))) := by
  intro fuel
  induction fuel with
  | zero =>
    intro pos s pos' h
    rw [c2_loop] at h
    split at h
    · cases h
    · cases h
      next hge =>
        exact ⟨0, by omega, fun j hj => absurd hj (by omega),
               Or.inl (by omega)⟩
  | succ fuel ih =>
    intro pos s pos' h
    rw [c2_loop] at h
    split at h
    case isFalse hge =>
      cases h
      exact ⟨0, by omega, fun j hj => absurd hj (by omega), Or.inl (by omega)⟩
    case isTrue hlt =>
      rcases get_and_seek_eq ws pos with hE | ⟨l, hl, hE⟩ <;>
        rw [hE] at h <;> try dsimp only at h
      · cases h
      · rcases get_and_seek_eq ws (pos + 1) with h1 | ⟨r, hr, h1⟩ <;>
          rw [h1] at h <;> try dsimp only at h
        · cases h
        · by_cases hterm1 : l = 0x60000000 ∧ r = 0
          · rw [if_pos hterm1] at h
            cases h
            refine ⟨1, by omega, fun j hj => absurd hj (by omega),
                    Or.inr ⟨by omega, ?_⟩⟩
            rw [(show pos + 2 * (1 - 1) = pos by omega)]
            exact Or.inl ⟨by rw [hl, hterm1.1], by rw [hr, hterm1.2]⟩
          · rw [if_neg hterm1] at h
            try dsimp only at h
            by_cases hterm2 : r = 0x60000000
            · rw [if_pos hterm2] at h
              cases h
              refine ⟨1, by omega, fun j hj => absurd hj (by omega),
                      Or.inr ⟨by omega, ?_⟩⟩
              rw [(show pos + 2 * (1 - 1) = pos by omega)]
              exact Or.inr (by rw [hr, hterm2])
            · rw [if_neg hterm2] at h
              try dsimp only at h
              rcases h2 : c2_loop ws fuel (pos + 1 + 1) with e | ⟨rest, pos3⟩ <;>
                rw [h2] at h <;> try dsimp only at h
              · cases h
              · cases h
                obtain ⟨k, hpos3, hnt, hend⟩ := ih (pos + 1 + 1) rest _ h2
                refine ⟨k + 1, by omega, ?_, ?_⟩
                · intro j hj
                  cases j with
                  | zero =>
                    rw [(show pos + 2 * 0 = pos by omega)]
                    intro hcon
                    rcases hcon with ⟨hc1, hc2⟩ | hc
                    · rw [hl] at hc1
                      rw [hr] at hc2
                      exact hterm1 ⟨Option.some.inj hc1, Option.some.inj hc2⟩
                    · rw [(show pos + 1 = pos + 1 by omega), hr] at hc
                      exact hterm2 (Option.some.inj hc)
                  | succ j' =>
                    have hside := hnt j' (by omega)
                    rw [(show pos + 2 * (j' + 1) = pos + 1 + 1 + 2 * j' by omega)]
                    exact hside
                · rcases hend with hend | ⟨hkpos, hterm⟩
                  · exact Or.inl (by omega)
                  · refine Or.inr ⟨by omega, ?_⟩
                    rw [(show pos + 2 * (k + 1 - 1) = pos + 1 + 1 + 2 * (k - 1) by omega)]
                    exact hterm

/-! Claim theorems. -/

/-- C1 (corrected, counterexample): the word sequence
`[0x06000000, 0x00000005]` is non-empty, has even length, and the tag
byte at its only record boundary is the supported `0x06`, yet the decoder
does not return `Ok`: the string-write record declares five data bytes,
so the decoder reads two data words past the two available words and
crashes (an out-of-bounds panic, modelled as `Panic`). -/
theorem C1_counterexample :
    ([0x06000000, 0x00000005] : List Nat) ≠ [] ∧
    ([0x06000000, 0x00000005] : List Nat).length % 2 = 0 ∧
    (((0x06000000 : Nat) &&& 0xFF000000) >>> 0x18) = 0x06 ∧
    convert_from_gecko_code_values [0x06000000, 0x00000005] = .error .Panic :=
  ⟨by decide, by decide, by decide, rfl⟩

/-- C1 (corrected, amended claim): for every non-empty, even-length word
sequence, (i) when every record boundary reached by the dispatcher
carries a supported tag and a record whose declared extent fits inside
the sequence (`decode_well_formed`), the decode returns `Ok` with a
non-empty string; (ii) every `Ok` result is non-empty; (iii) the only
failures are the out-of-bounds crash and `InvalidType` — never `Empty`,
`Malformed` or `ParseError`; (iv) the crash arises exactly from a cursor
read at or past the end of the sequence (a record's extent overrunning
it); and (v) an `InvalidType` failure names a reached record boundary
whose tag byte is unsupported — so with supported tags the decode can
only return `Ok` with non-empty text or crash on a truncated record. -/
theorem C1_amended_decode_outcomes (ws : List Nat) (hne : ws ≠ [])
    (heven : ws.length % 2 = 0) :
    (decode_well_formed ws ws.length 0 = true →
      ∃ s, convert_from_gecko_code_values ws = .ok s ∧ s ≠ "") ∧
    (∀ s, convert_from_gecko_code_values ws = .ok s → s ≠ "") ∧
    (∀ e, convert_from_gecko_code_values ws = .error e →
      e = .Panic ∨ ∃ ln v, e = .InvalidType ln v) ∧
    (∀ pos, get_and_seek ws pos = .error .Panic ↔ ws.length ≤ pos) ∧
    (∀ ln v, convert_from_gecko_code_values ws = .error (.InvalidType ln v) →
      ∃ p, p < ws.length ∧ ws[p]? = some v ∧
        supported_tag ((v &&& 0xFF000000) >>> 0x18) = false ∧
        ln = p / 2 + 1) := by
  have h0 : ¬ ws.length = 0 := by
    intro h
    exact hne (List.eq_nil_of_length_eq_zero h)
  have hconv : convert_from_gecko_code_values ws = convert_loop ws ws.length 0 := by
    rw [convert_from_gecko_code_values, if_neg h0,
        if_neg (by omega : ¬ ws.length % 2 ≠ 0)]
  refine ⟨?_, ?_, ?_, fun pos => get_and_seek_panic_iff ws pos, ?_⟩
  · intro hwf
    obtain ⟨s, hs⟩ := convert_loop_wf ws ws.length 0 hwf
    rw [hconv]
    exact ⟨s, hs, (convert_loop_spec ws ws.length 0).1 s hs
      (Nat.pos_of_ne_zero h0)⟩
  · intro s hs
    rw [hconv] at hs
    exact (convert_loop_spec ws ws.length 0).1 s hs (Nat.pos_of_ne_zero h0)
  · intro e he
    rw [hconv] at he
    exact (convert_loop_spec ws ws.length 0).2 e he
  · intro ln v he
    rw [hconv] at he
    exact convert_loop_invalid ws ws.length 0 ln v he

/-- C1 (witness for the amended claim): instantiation at the two-word
32-bit-write sequence `[0x04001040, 0x00000001]`, which is
well-formed. -/
theorem C1_amended_decode_outcomes_witness :
    (decode_well_formed [0x04001040, 0x00000001]
        ([0x04001040, 0x00000001] : List Nat).length 0 = true →
      ∃ s, convert_from_gecko_code_values [0x04001040, 0x00000001] = .ok s ∧
        s ≠ "") ∧
    (∀ s, convert_from_gecko_code_values [0x04001040, 0x00000001] = .ok s →
      s ≠ "") ∧
    (∀ e, convert_from_gecko_code_values [0x04001040, 0x00000001] = .error e →
      e = .Panic ∨ ∃ ln v, e = .InvalidType ln v) ∧
    (∀ pos, get_and_seek [0x04001040, 0x00000001] pos = .error .Panic ↔
      ([0x04001040, 0x00000001] : List Nat).length ≤ pos) ∧
    (∀ ln v, convert_from_gecko_code_values [0x04001040, 0x00000001] =
        .error (.InvalidType ln v) →
      ∃ p, p < ([0x04001040, 0x00000001] : List Nat).length ∧
        ([0x04001040, 0x00000001] : List Nat)[p]? = some v ∧
        supported_tag ((v &&& 0xFF000000) >>> 0x18) = false ∧
        ln = p / 2 + 1) :=
  C1_amended_decode_outcomes [0x04001040, 0x00000001] (by decide) (by decide)

/-- C2 (code_bug): a read past the end of the sequence is not turned into
a `Truncated` error by the code as written — `get_and_seek` indexes the
slice unchecked and panics, so decoding `[0xC0000000, 0x00000001]` (an
execute-assembly record that promises one instruction pair after the two
header words) crashes instead of reporting truncation. -/
theorem C2_truncated_read_crashes :
    convert_from_gecko_code_values [0xC0000000, 0x00000001] = .error .Panic ∧
    get_and_seek ([] : List Nat) 0 = .error .Panic :=
  ⟨rfl, rfl⟩

/-- C3 (corrected, counterexample): the `0xC0` execute-assembly decoder
renders the raw tag word, not a resolved address — decoding
`[0xC0001040, 0x00000000]` prints `Target address: 0xC0001040`, while the
Address Resolver would have produced `0x80001040`. -/
theorem C3_counterexample :
    convert_from_gecko_code_values [0xC0001040, 0x00000000] =
      .ok "// - Execute Assembly - \n// Target address: 0xC0001040\n\n\n\n// ---\n\n" ∧
    resolve 0xC0001040 false = 0x80001040 :=
  ⟨rfl, by decide⟩

/-- C3 (corrected, amended claim): the `0x02/0x03`, `0x04/0x05`, `0x06`,
`0xC2/0xC3` and `0xC6/0xC7` decoders render addresses through the
Address Resolver, with the larger-address flag derived from the tag
byte's low bit by the dispatcher (even tag = clear, odd tag = set); the
`0xC0` decoder renders its first word raw and the `0x84/0x94` decoder
renders its second word raw, bypassing the resolver. -/
theorem C3_amended_address_rendering :
    (∀ ws pos larger s pos', from_04 ws pos larger = .ok (s, pos') →
      ∃ a v, ws[pos]? = some a ∧ ws[pos + 1]? = some v ∧
        s = "// - Constant 32-bit RAM Write -\n" ++ "// Target address: 0x"
            ++ hex8 (resolve a larger) ++ "\n" ++ "// Value: 0x" ++ hex8 v) ∧
    (∀ ws pos larger s pos', from_02 ws pos larger = .ok (s, pos') →
      ∃ a v, ws[pos]? = some a ∧ ws[pos + 1]? = some v ∧
        s = "// - Constant 16-bit RAM Fill -\n" ++ "// Range: 0x"
            ++ hex8 (resolve a larger) ++ " to 0x"
            ++ hex8 (resolve a larger + ((v &&& 0xFFFF0000) >>> 0x10) + 1)
            ++ "\n" ++ "// Value: 0x" ++ hex4 (v &&& 0x0000FFFF)) ∧
    (∀ ws pos larger s pos', from_06 ws pos larger = .ok (s, pos') →
      ∃ a rest, ws[pos]? = some a ∧
        s = "// - String RAM Write - \n" ++ "// Target address: 0x"
            ++ hex8 (resolve a larger) ++ "\n" ++ rest) ∧
    (∀ ws pos larger s pos', from_c2 ws pos larger = .ok (s, pos') →
      ∃ a body, ws[pos]? = some a ∧
        s = "// - Insert Assembly -\n" ++ "// Target address: 0x"
            ++ hex8 (resolve a larger) ++ "\n\n" ++ body) ∧
    (∀ ws pos larger s pos', from_c6 ws pos larger = .ok (s, pos') →
      ∃ a t, ws[pos]? = some a ∧ ws[pos + 1]? = some t ∧
        s = "// - Create a Branch -\n" ++ "// Target address: 0x"
            ++ hex8 (resolve a larger) ++ "\n" ++ "// Branch to: 0x"
            ++ hex8 t ++ "\n") ∧
    (∀ ws pos s pos', from_c0 ws pos = .ok (s, pos') →
      ∃ a body, ws[pos]? = some a ∧
        s = "// - Execute Assembly - \n" ++ "// Target address: 0x"
            ++ hex8 a ++ "\n\n" ++ body) ∧
    (∀ ws pos s pos', from_84_94 ws pos = .ok (s, pos') →
      ∃ a t1 t2, ws[pos + 1]? = some a ∧ s = t1 ++ (hex8 a ++ t2)) ∧
    (∀ ws pos v, ws[pos]? = some v →
      ((v &&& 0xFF000000) >>> 0x18 = 0x02 →
        dispatch_record ws pos = from_02 ws pos false) ∧
      ((v &&& 0xFF000000) >>> 0x18 = 0x03 →
        dispatch_record ws pos = from_02 ws pos true) ∧
      ((v &&& 0xFF000000) >>> 0x18 = 0x04 →
        dispatch_record ws pos = from_04 ws pos false) ∧
      ((v &&& 0xFF000000) >>> 0x18 = 0x05 →
        dispatch_record ws pos = from_04 ws pos true) ∧
      ((v &&& 0xFF000000) >>> 0x18 = 0x06 →
        dispatch_record ws pos = from_06 ws pos false) ∧
      ((v &&& 0xFF000000) >>> 0x18 = 0xC2 →
        dispatch_record ws pos = from_c2 ws pos false) ∧
      ((v &&& 0xFF000000) >>> 0x18 = 0xC3 →
        dispatch_record ws pos = from_c2 ws pos true) ∧
      ((v &&& 0xFF000000) >>> 0x18 = 0xC6 →
        dispatch_record ws pos = from_c6 ws pos false) ∧
      ((v &&& 0xFF000000) >>> 0x18 = 0xC7 →
        dispatch_record ws pos = from_c6 ws pos true)) := by
  refine ⟨?_, ?_, ?_, ?_, ?_, ?_, ?_, ?_⟩
  · intro ws pos larger s pos' h'
    rw [from_04] at h'
    rcases get_code_address_eq ws pos larger with hE | ⟨a, ha, hE⟩ <;>
      rw [hE] at h' <;> try dsimp only at h'
    · cases h'
    · rcases get_and_seek_eq ws (pos + 1) with h1 | ⟨v, hv, h1⟩ <;>
        rw [h1] at h' <;> try dsimp only at h'
      · cases h'
      · cases h'
        exact ⟨a, v, ha, hv, rfl⟩
  · intro ws pos larger s pos' h'
    rw [from_02] at h'
    rcases get_code_address_eq ws pos larger with hE | ⟨a, ha, hE⟩ <;>
      rw [hE] at h' <;> try dsimp only at h'
    · cases h'
    · rcases get_and_seek_eq ws (pos + 1) with h1 | ⟨v, hv, h1⟩ <;>
        rw [h1] at h' <;> try dsimp only at h'
      · cases h'
      · cases h'
        exact ⟨a, v, ha, hv, rfl⟩
  · intro ws pos larger s pos' h'
    rw [from_06] at h'
    rcases get_code_address_eq ws pos larger with hE | ⟨a, ha, hE⟩ <;>
      rw [hE] at h' <;> try dsimp only at h'
    · cases h'
    · rcases get_and_seek_eq ws (pos + 1) with h1 | ⟨n, hn, h1⟩ <;>
        rw [h1] at h' <;> try dsimp only at h'
      · cases h'
      · rcases h2 : read_words ws (pos + 1 + 1) ((n + 3) / 4) with e | ⟨vs, pos3⟩ <;>
          rw [h2] at h' <;> try dsimp only at h'
        · cases h'
        · split at h'
          · rcases hu : utf8_decode ((vs.map u32_to_be_bytes).flatten.take n
              ++ List.replicate (n - (vs.map u32_to_be_bytes).flatten.length) 0)
              with _ | cs <;> rw [hu] at h' <;> try dsimp only at h'
            · cases h'
              exact ⟨a, _, ha, rfl⟩
            · cases h'
              refine ⟨a, "// String contents: \"" ++ String.mk cs ++ "\"\n",
                ha, ?_⟩
              simp only [String.append_assoc]
          · cases h'
            exact ⟨a, _, ha, rfl⟩
  · intro ws pos larger s pos' h'
    rw [from_c2] at h'
    rcases get_code_address_eq ws pos larger with hE | ⟨a, ha, hE⟩ <;>
      rw [hE] at h' <;> try dsimp only at h'
    · cases h'
    · rcases get_and_seek_eq ws (pos + 1) with h1 | ⟨n, hn, h1⟩ <;>
        rw [h1] at h' <;> try dsimp only at h'
      · cases h'
      · rcases h2 : c2_loop ws ws.length (pos + 1 + 1) with e | ⟨body, pos3⟩ <;>
          rw [h2] at h' <;> try dsimp only at h'
        · cases h'
        · cases h'
          exact ⟨a, body, ha, rfl⟩
  · intro ws pos larger s pos' h'
    rw [from_c6] at h'
    rcases get_code_address_eq ws pos larger with hE | ⟨a, ha, hE⟩ <;>
      rw [hE] at h' <;> try dsimp only at h'
    · cases h'
    · rcases get_and_seek_eq ws (pos + 1) with h1 | ⟨t, ht, h1⟩ <;>
        rw [h1] at h' <;> try dsimp only at h'
      · cases h'
      · cases h'
        exact ⟨a, t, ha, ht, rfl⟩
  · intro ws pos s pos' h'
    rw [from_c0] at h'
    rcases get_and_seek_eq ws pos with hE | ⟨a, ha, hE⟩ <;>
      rw [hE] at h' <;> try dsimp only at h'
    · cases h'
    · rcases get_and_seek_eq ws (pos + 1) with h1 | ⟨n, hn, h1⟩ <;>
        rw [h1] at h' <;> try dsimp only at h'
      · cases h'
      · rcases h2 : c0_loop ws (pos + 1 + 1) n with e | ⟨body, pos3⟩ <;>
          rw [h2] at h' <;> try dsimp only at h'
        · cases h'
        · cases h'
          exact ⟨a, body, ha, rfl⟩
  · intro ws pos s pos' h'
    rw [from_84_94] at h'
    rcases get_and_seek_eq ws pos with hE | ⟨code, hcode, hE⟩ <;>
      rw [hE] at h' <;> try dsimp only at h'
    · cases h'
    · rw [value_size_value_eq_zero code, if_pos rfl] at h'
      try dsimp only at h'
      rcases get_and_seek_eq ws (pos + 1) with h1 | ⟨a, ha, h1⟩ <;>
        rw [h1] at h' <;> try dsimp only at h'
      · cases h'
      · rw [sub_subtype_eq_zero code, if_pos rfl] at h'
        split at h'
        · cases h'
          refine ⟨a, "// - Store register " ++ Nat.repr (code &&& 0xF)
            ++ " starting at address 0x",
            " with " ++ Nat.repr ((code &&& 0x0000FFF0) >>> 0x4 + 1)
            ++ " consecutive written " ++ Nat.repr 1 ++ "-byte values -",
            ha, ?_⟩
          simp [String.append_assoc]
        · split at h'
          · cases h'
            refine ⟨a, "// - Store register " ++ Nat.repr (code &&& 0xF)
              ++ " starting at address 0x",
              " + po with " ++ Nat.repr ((code &&& 0x0000FFF0) >>> 0x4 + 1)
              ++ " consecutive written " ++ Nat.repr 1 ++ "-byte values -",
              ha, ?_⟩
            simp [String.append_assoc]
          · cases h'
  · intro ws pos v hv
    refine ⟨fun h2 => ?_, fun h3 => ?_, fun h4 => ?_, fun h5 => ?_,
            fun h6 => ?_, fun hc2 => ?_, fun hc3 => ?_, fun hc6 => ?_,
            fun hc7 => ?_⟩ <;>
      rw [dispatch_record, hv] <;> try dsimp only
    · rw [h2]
      rw [if_pos (by decide)]
      rfl
    · rw [h3]
      rw [if_pos (by decide)]
      rfl
    · rw [h4]
      rw [if_neg (by decide), if_pos (by decide)]
      rfl
    · rw [h5]
      rw [if_neg (by decide), if_pos (by decide)]
      rfl
    · rw [h6]
      rw [if_neg (by decide), if_neg (by decide), if_pos (by decide)]
      rfl
    · rw [hc2]
      rw [if_neg (by decide), if_neg (by decide), if_neg (by decide),
          if_neg (by decide), if_neg (by decide), if_neg (by decide),
          if_neg (by decide), if_pos (by decide)]
      rfl
    · rw [hc3]
      rw [if_neg (by decide), if_neg (by decide), if_neg (by decide),
          if_neg (by decide), if_neg (by decide), if_neg (by decide),
          if_neg (by decide), if_pos (by decide)]
      rfl
    · rw [hc6]
      rw [if_neg (by decide), if_neg (by decide), if_neg (by decide),
          if_neg (by decide), if_neg (by decide), if_neg (by decide),
          if_neg (by decide), if_neg (by decide), if_pos (by decide)]
      rfl
    · rw [hc7]
      rw [if_neg (by decide), if_neg (by decide), if_neg (by decide),
          if_neg (by decide), if_neg (by decide), if_neg (by decide),
          if_neg (by decide), if_neg (by decide), if_pos (by decide)]
      rfl

/-- C3 (witness for the amended claim): instantiation of the `0x04`
clause at `[0x04001040, 0x00000007]`. -/
theorem C3_amended_address_rendering_witness :
    ∃ a v, ([0x04001040, 0x00000007] : List Nat)[0]? = some a ∧
      ([0x04001040, 0x00000007] : List Nat)[0 + 1]? = some v ∧
      ("// - Constant 32-bit RAM Write -\n// Target address: 0x80001040\n// Value: 0x00000007" : String)
        = "// - Constant 32-bit RAM Write -\n" ++ "// Target address: 0x"
          ++ hex8 (resolve a false) ++ "\n" ++ "// Value: 0x" ++ hex8 v :=
  C3_amended_address_rendering.1 [0x04001040, 0x00000007] 0 false _ 2 rfl

/-- C4 (code_bug): the element-size selector of the store-register family
is computed as `(code & 0x00F00000) >> 0x18`, which is identically zero
(the mask keeps bits 20–23, the shift discards bits 0–23), so a record
whose selector field is 3 — which the claim and the code's own match arms
and error message say must fail with a `ParseError` — instead decodes
successfully as 1-byte values. -/
theorem C4_size_selector_inoperative :
    (((0x84300000 : Nat) &&& 0x00F00000) >>> 0x14) = 3 ∧
    (∀ code : Nat, (code &&& 0x00F00000) >>> 0x18 = 0) ∧
    convert_from_gecko_code_values [0x84300000, 0x80001000] =
      .ok "// - Store register 0 starting at address 0x80001000 with 1 consecutive written 1-byte values -\n\n// ---\n\n" :=
  ⟨by decide, value_size_value_eq_zero, rfl⟩

/-- C5 (confirmed): the Address Resolver is a pure total function — for
every raw word and flag it returns `0x80000000 ||| (raw & 0x00FFFFFF)`,
plus `0x01000000` when the flag is set, the result always fits in 32 bits
(so the `u32` addition cannot overflow and there is no failure mode), and
the two pinned examples hold. -/
theorem C5_resolve_pure_total (raw : Nat) (larger : Bool) :
    resolve raw larger =
      (if larger then (0x80000000 ||| (raw &&& 0x00FFFFFF)) + 0x01000000
       else 0x80000000 ||| (raw &&& 0x00FFFFFF)) ∧
    resolve raw larger < 2 ^ 32 ∧
    resolve 0x04001040 false = 0x80001040 ∧
    resolve 0x05001040 true = 0x81001040 := by
  have key : (0x80000000 : Nat) ||| (raw &&& 0x00FFFFFF) =
      0x80000000 + (raw &&& 0x00FFFFFF) := by
    have hb : raw &&& 0x00FFFFFF < 2 ^ 31 :=
      lt_of_le_of_lt Nat.and_le_right (by norm_num)
    have hor := Nat.mul_add_lt_is_or hb 1
    norm_num at hor
    omega
  have hle : raw &&& 0x00FFFFFF ≤ 0x00FFFFFF := Nat.and_le_right
  refine ⟨by cases larger <;> rfl, ?_, by decide, by decide⟩
  cases larger
  · show 0x80000000 ||| (raw &&& 0x00FFFFFF) < 2 ^ 32
    omega
  · show (0x80000000 ||| (raw &&& 0x00FFFFFF)) + 0x01000000 < 2 ^ 32
    omega

/-- C6 (confirmed): the `0xC0` execute-assembly decoder consumes at most
`line_count` pairs of instruction words after its two header words; every
pair strictly before the last consumed one is free of the terminator
`0x4E800020`; and whenever a consumed pair contains the terminator, the
rendered text ends with the mnemonic `blr` and consumption stops right
after that pair. -/
theorem C6_execute_assembly_blr_stop :
    (∀ ws n pos s pos', c0_loop ws pos n = .ok (s, pos') →
      ∃ k, k ≤ n ∧ pos' = pos + 2 * k ∧
        (∀ j, j + 1 < k → ws[pos + 2 * j]? ≠ some 0x4E800020 ∧
          ws[pos + 2 * j + 1]? ≠ some 0x4E800020) ∧
        (∀ j, j < k →
          (ws[pos + 2 * j]? = some 0x4E800020 ∨
           ws[pos + 2 * j + 1]? = some 0x4E800020) →
          ∃ t, s = t ++ "blr\n" ∧ pos' = pos + 2 * j + 2)) ∧
    (∀ ws pos s pos', from_c0 ws pos = .ok (s, pos') →
      ∃ n k, ws[pos + 1]? = some n ∧ k ≤ n ∧ pos' = pos + 2 + 2 * k) := by
  refine ⟨fun ws n pos s pos' h => c0_loop_run ws n pos s pos' h, ?_⟩
  intro ws pos s pos' h
  rw [from_c0] at h
  rcases get_and_seek_eq ws pos with hE | ⟨a, ha, hE⟩ <;>
    rw [hE] at h <;> try dsimp only at h
  · cases h
  · rcases get_and_seek_eq ws (pos + 1) with h1 | ⟨n, hn, h1⟩ <;>
      rw [h1] at h <;> try dsimp only at h
    · cases h
    · rcases h2 : c0_loop ws (pos + 1 + 1) n with e | ⟨body, pos3⟩ <;>
        rw [h2] at h <;> try dsimp only at h
      · cases h
      · cases h
        obtain ⟨k, hk, hpos3, _, _⟩ := c0_loop_run ws n (pos + 1 + 1) body _ h2
        exact ⟨n, k, hn, hk, by omega⟩

/-- C6 (witness): instantiation at the two-word body
`[0x38600000, 0x4E800020]` with a declared line count of two — the
second word of the first pair is the terminator, so one pair is consumed
and the output ends with `blr`. -/
theorem C6_execute_assembly_blr_stop_witness :
    ∃ k, k ≤ 2 ∧ 2 = 0 + 2 * k ∧
      (∀ j, j + 1 < k →
        ([0x38600000, 0x4E800020] : List Nat)[0 + 2 * j]? ≠ some 0x4E800020 ∧
        ([0x38600000, 0x4E800020] : List Nat)[0 + 2 * j + 1]? ≠ some 0x4E800020) ∧
      (∀ j, j < k →
        (([0x38600000, 0x4E800020] : List Nat)[0 + 2 * j]? = some 0x4E800020 ∨
         ([0x38600000, 0x4E800020] : List Nat)[0 + 2 * j + 1]? = some 0x4E800020) →
        ∃ t, ("0x38600000\nblr\n" : String) = t ++ "blr\n" ∧ 2 = 0 + 2 * j + 2) :=
  C6_execute_assembly_blr_stop.1 [0x38600000, 0x4E800020] 2 0 "0x38600000\nblr\n" 2 rfl

/-- C7 (confirmed): the `0xC2/0xC3` insert-assembly decoder consumes the
words after its two header words in pairs, terminating exactly at the
first pair whose first word is the no-op `0x60000000` with its partner
exactly zero (rendering neither word) or whose second word is the no-op
(rendering only the first word); with no terminal pair it consumes every
remaining word (and always succeeds when the remainder is
pair-aligned). -/
theorem C7_insert_assembly_termination :
    (∀ ws fuel pos s pos', c2_loop ws fuel pos = .ok (s, pos') →
      ∃ k, pos' = pos + 2 * k ∧
        (∀ j, j + 1 < k → ¬ c2_pair_terminal ws (pos + 2 * j)) ∧
        (ws.length ≤ pos' ∨
          (0 < k ∧ c2_pair_terminal ws (pos + 2 * (k - 1))))) ∧
    (∀ ws fuel pos l r, pos < ws.length → ws[pos]? = some l →
      ws[pos + 1]? = some r → l = 0x60000000 → r = 0 →
      c2_loop ws (fuel + 1) pos = .ok ("", pos + 2)) ∧
    (∀ ws fuel pos l r, pos < ws.length → ws[pos]? = some l →
      ws[pos + 1]? = some r → ¬ (l = 0x60000000 ∧ r = 0) → r = 0x60000000 →
      c2_loop ws (fuel + 1) pos = .ok (code_to_instruction l ++ "\n", pos + 2)) ∧
    (∀ ws fuel pos, (ws.length - pos) % 2 = 0 → ws.length - pos ≤ 2 * fuel →
      ∃ s pos', c2_loop ws fuel pos = .ok (s, pos')) ∧
    (∀ ws pos larger s pos', from_c2 ws pos larger = .ok (s, pos') →
      ∃ k, pos' = pos + 2 + 2 * k ∧
        (ws.length ≤ pos' ∨ (0 < k ∧ c2_pair_terminal ws (pos' - 2)))) := by
  refine ⟨fun ws fuel pos s pos' h => c2_loop_run ws fuel pos s pos' h,
          ?_, ?_, fun ws fuel pos he hf => c2_loop_total ws fuel pos he hf, ?_⟩
  · intro ws fuel pos l r hlt hl hr h60 h0
    rw [c2_loop, if_pos hlt,
        (show get_and_seek ws pos = .ok (l, pos + 1) by rw [get_and_seek, hl])]
    try dsimp only
    rw [(show get_and_seek ws (pos + 1) = .ok (r, pos + 1 + 1) by
          rw [get_and_seek, hr])]
    try dsimp only
    rw [if_pos ⟨h60, h0⟩]
  · intro ws fuel pos l r hlt hl hr hterm1 h60
    rw [c2_loop, if_pos hlt,
        (show get_and_seek ws pos = .ok (l, pos + 1) by rw [get_and_seek, hl])]
    try dsimp only
    rw [(show get_and_seek ws (pos + 1) = .ok (r, pos + 1 + 1) by
          rw [get_and_seek, hr])]
    try dsimp only
    rw [if_neg hterm1]
    try dsimp only
    rw [if_pos h60]
  · intro ws pos larger s pos' h
    rw [from_c2] at h
    rcases get_code_address_eq ws pos larger with hE | ⟨raw, hraw, hE⟩ <;>
      rw [hE] at h <;> try dsimp only at h
    · cases h
    · rcases get_and_seek_eq ws (pos + 1) with h1 | ⟨n, hn, h1⟩ <;>
        rw [h1] at h <;> try dsimp only at h
      · cases h
      · rcases h2 : c2_loop ws ws.length (pos + 1 + 1) with e | ⟨body, pos3⟩ <;>
          rw [h2] at h <;> try dsimp only at h
        · cases h
        · cases h
          obtain ⟨k, hpos3, hnt, hend⟩ := c2_loop_run ws ws.length (pos + 1 + 1) body _ h2
          refine ⟨k, by omega, ?_⟩
          rcases hend with hend | ⟨hkpos, hterm⟩
          · exact Or.inl (by omega)
          · refine Or.inr ⟨hkpos, ?_⟩
            rw [(show pos' - 2 = pos + 1 + 1 + 2 * (k - 1) by omega)]
            exact hterm

/-- C7 (witness): instantiation at the two-word body `[0x60000000, 0]` —
the first pair is a no-op/zero terminator, so the loop stops after it
having rendered nothing. -/
theorem C7_insert_assembly_termination_witness :
    ∃ k, 2 = 0 + 2 * k ∧
      (∀ j, j + 1 < k → ¬ c2_pair_terminal [0x60000000, 0] (0 + 2 * j)) ∧
      (([0x60000000, 0] : List Nat).length ≤ 2 ∨
        (0 < k ∧ c2_pair_terminal [0x60000000, 0] (0 + 2 * (k - 1)))) :=
  C7_insert_assembly_termination.1 [0x60000000, 0] 2 0 "" 2 rfl

/-- C8 (code_bug): the string-write heuristic accepts any valid-UTF-8
byte content whose sole zero byte is final — `String::from_utf8` checks
UTF-8 validity only, not printability — so the bytes
`07 41 42 43 00` (which contain the unprintable control byte `0x07`) are
rendered in the quoted-string form rather than as a hex byte list. -/
theorem C8_unprintable_bytes_render_as_string :
    is_string_candidate [0x07, 0x41, 0x42, 0x43, 0x00] = true ∧
    convert_from_gecko_code_values [0x06000000, 0x00000005, 0x07414243, 0x00FFFFFF] =
      .ok "// - String RAM Write - \n// Target address: 0x80000000\n// String contents: \"\x07ABC\x00\"\n\n\n// ---\n\n" :=
  ⟨rfl, rfl⟩

/-- C9 (code_bug): the assembly direction does not always signal failure
with a `None` result — the hexadecimal immediate branch of
`token_to_numeric_argument` calls `.unwrap()` on `i16::from_str_radix`,
so a line whose hex immediate does not fit the parser (here `0x8000`,
which exceeds `i16::MAX`) panics instead of returning no match,
regardless of the external `assemble` function. -/
theorem C9_hex_immediate_unwrap_panics
    (assemble : String → List Argument → Option Nat) :
    instr_to_code assemble "b 0x8000" = .error .panic ∧
    from_str_radix_i16 "8000" = none :=
  ⟨rfl, rfl⟩

/-- C10 (confirmed): every supported record decoder routed by the
dispatcher advances the cursor by at least two words on success, and
consequently the dispatcher loop terminates within any fuel budget
covering half the remaining words — all sufficient budgets (in
particular the canonical `ws.length` used by
`convert_from_gecko_code_values`) compute the same result. -/
theorem C10_dispatch_advances_and_decode_terminates :
    (∀ ws pos s pos', dispatch_record ws pos = .ok (s, pos') →
      pos + 2 ≤ pos') ∧
    (∀ ws fuel fuel' pos,
      ws.length - pos ≤ 2 * fuel → ws.length - pos ≤ 2 * fuel' →
      convert_loop ws fuel pos = convert_loop ws fuel' pos) :=
  ⟨fun ws pos s pos' h => (dispatch_record_spec ws pos).1 s pos' h,
   fun ws => convert_loop_fuel ws⟩

/-- C10 (witness): instantiation at the two-word 32-bit-write sequence
`[0x04001040, 0x00000001]` and two sufficient fuel budgets. -/
theorem C10_dispatch_advances_witness :
    0 + 2 ≤ 2 ∧
    convert_loop [0x04001040, 0x00000001] 5 0 =
      convert_loop [0x04001040, 0x00000001] 9 0 :=
  ⟨C10_dispatch_advances_and_decode_terminates.1 [0x04001040, 0x00000001] 0
      "// - Constant 32-bit RAM Write -\n// Target address: 0x80001040\n// Value: 0x00000001"
      2 rfl,
   C10_dispatch_advances_and_decode_terminates.2 [0x04001040, 0x00000001] 5 9 0
      (by decide) (by decide)⟩

end Salamander
